import Mathlib

/-!
Verification development for the substrate CLI's local-first synchronization
and graph core.  The JavaScript sources are embedded shallowly:

* timestamps are ISO-8601 strings compared through `new Date(...).getTime()`;
  we represent each timestamp by its epoch-millisecond value (a `Nat`);
* SQLite tables are lists of record rows in rowid (insertion) order;
  `SELECT ... .get(...)` is `List.find?`, `UPDATE ... WHERE` is `List.map`
  with a guard, `INSERT` appends, `ORDER BY` is a stable sort (`List.insertionSort`);
* the JSON round-trip on the `tags` column (`JSON.stringify`/`JSON.parse`)
  is the identity on lists of strings, so tags are stored parsed;
* fallible remote calls are driven by explicit `FetchResult` values.
-/

namespace Substrate

/-- Timestamps as epoch milliseconds. -/
abbrev Time := Nat

/-! ## lib/similarity.js -/

/-- One pass of the JS `replace(/\s+/g, ' ')`: every whitespace run becomes a
single space.  `prevWs` records whether the previous character was part of a
whitespace run already rewritten. -/
def collapseWsAux : Bool → List Char → List Char
  | _, [] => []
  | prevWs, c :: rest =>
    if c.isWhitespace then
      if prevWs then collapseWsAux true rest
      else ' ' :: collapseWsAux true rest
    else c :: collapseWsAux false rest

/-- JS `trim()`: drop whitespace from both ends. -/
def jsTrim (l : List Char) : List Char :=
  ((l.dropWhile Char.isWhitespace).reverse.dropWhile Char.isWhitespace).reverse

/-- `normalize` from lib/similarity.js:
`text.toLowerCase().trim().replace(/\s+/g, ' ')`. -/
def normalize (text : String) : String :=
  String.mk (collapseWsAux false (jsTrim (text.data.map Char.toLower)))

/-- Split a character list at spaces (the JS `split(/\s+/)` on text whose
whitespace runs were already collapsed to single spaces by `normalize`). -/
def splitOnSpaceAux : List Char → List Char → List String
  | [], acc => [String.mk acc.reverse]
  | c :: rest, acc =>
    if c = ' ' then String.mk acc.reverse :: splitOnSpaceAux rest []
    else splitOnSpaceAux rest (c :: acc)

/-- `getWords` from lib/similarity.js: split the normalized text on
whitespace and keep words of length greater than 2. -/
def getWords (text : String) : List String :=
  (splitOnSpaceAux (normalize text).data []).filter (fun w => decide (w.length > 2))

/-- `jaccardSimilarity` from lib/similarity.js.  The JS sets are dedup'd
lists here; the caller passes dedup'd word lists. -/
def jaccardSimilarity (set1 set2 : List String) : ℚ :=
  let intersection := set1.filter (fun x => decide (x ∈ set2))
  let union := (set1 ++ set2).dedup
  if union.length = 0 then 0 else (intersection.length : ℚ) / (union.length : ℚ)

/-- `textSimilarity` from lib/similarity.js: exact match after
normalization, then containment, then Jaccard word overlap. -/
def textSimilarity (text1 text2 : String) : ℚ :=
  let norm1 := normalize text1
  let norm2 := normalize text2
  if norm1 = norm2 then 1
  else if norm2.data <:+: norm1.data ∨ norm1.data <:+: norm2.data then
    let shorter := if norm1.length < norm2.length then norm1 else norm2
    let longer := if norm1.length < norm2.length then norm2 else norm1
    (shorter.length : ℚ) / (longer.length : ℚ)
  else
    jaccardSimilarity (getWords text1).dedup (getWords text2).dedup

/-- JS `s.startsWith(pre)`. -/
def jsStartsWith (s pre : String) : Bool := pre.data.isPrefixOf s.data

/-- JS `Math.round` (round half toward positive infinity). -/
def jsRound (q : ℚ) : ℤ := ⌊q + 1 / 2⌋

/-! ## Data model (schema of src/db/local.js) -/

/-- A row of the `context` table. -/
structure ContextItem where
  id : String
  workspace_id : String
  type : String
  content : String
  tags : List String
  scope : String
  meta : String
  remote_id : Option String := none
  created_at : Time
  updated_at : Time
  synced_at : Option Time := none
  deleted_at : Option Time := none
deriving Repr, DecidableEq

/-- A row of the `workspaces` table. -/
structure Workspace where
  id : String
  name : String
  description : String := ""
  project_id : String := ""
  remote_id : Option String := none
  created_at : Time
  updated_at : Time
  synced_at : Option Time := none
  deleted_at : Option Time := none
deriving Repr, DecidableEq

/-- A row of the `mounts` table (`path` is UNIQUE in the schema). -/
structure Mount where
  path : String
  workspace_id : String
deriving Repr, DecidableEq

/-- A row of the `links` table. -/
structure LinkRow where
  from_id : String
  to_id : String
  relation : String
  created_at : Time
deriving Repr, DecidableEq

/-- The local embedded store: the tables the sync and graph core touch. -/
structure SyncDb where
  workspaces : List Workspace
  context : List ContextItem
  links : List LinkRow
deriving Repr, DecidableEq

/-! ## lib/similarity.js, database-backed part -/

/-- An entry of the list returned by `findSimilar` (similarity is the
0-100 percentage after `Math.round`). -/
structure SimilarItem where
  id : String
  type : String
  content : String
  tags : List String
  similarity : ℤ
deriving Repr, DecidableEq

/-- Comparator of the JS `sort((a, b) => b.similarity - a.similarity)`. -/
def bySimilarityDesc (a b : SimilarItem) : Prop := b.similarity ≤ a.similarity

instance : DecidableRel bySimilarityDesc :=
  fun a b => inferInstanceAs (Decidable (b.similarity ≤ a.similarity))

instance : IsTotal SimilarItem bySimilarityDesc :=
  ⟨fun a b => Int.le_total b.similarity a.similarity⟩

instance : IsTrans SimilarItem bySimilarityDesc :=
  ⟨fun _ _ _ h1 h2 => Int.le_trans h2 h1⟩

/-- Comparator of `ORDER BY created_at DESC` (stable sort). -/
def byCreatedDesc (a b : ContextItem) : Prop := b.created_at ≤ a.created_at

instance : DecidableRel byCreatedDesc :=
  fun a b => inferInstanceAs (Decidable (b.created_at ≤ a.created_at))

instance : IsTotal ContextItem byCreatedDesc :=
  ⟨fun a b => Nat.le_total b.created_at a.created_at⟩

instance : IsTrans ContextItem byCreatedDesc :=
  ⟨fun _ _ _ h1 h2 => Nat.le_trans h2 h1⟩

/-- The candidate scan of `findSimilar`:
`SELECT ... WHERE workspace_id = ? AND deleted_at IS NULL ORDER BY created_at DESC LIMIT 100`. -/
def similarCandidates (ctx : List ContextItem) (workspaceId : String) : List ContextItem :=
  ((ctx.filter (fun c =>
    decide (c.workspace_id = workspaceId) && decide (c.deleted_at = none))).insertionSort
      byCreatedDesc).take 100

/-- `findSimilar` from lib/similarity.js: score each candidate, keep those at
or above the threshold, sort by similarity descending. -/
def findSimilar (ctx : List ContextItem) (workspaceId content : String)
    (threshold : ℚ) : List SimilarItem :=
  let items := similarCandidates ctx workspaceId
  let similar := items.filterMap (fun item =>
    let similarity := textSimilarity content item.content
    if threshold ≤ similarity then
      some { id := item.id
             type := item.type
             content := item.content
             tags := item.tags
             similarity := jsRound (similarity * 100) }
    else none)
  similar.insertionSort bySimilarityDesc

/-- `checkDuplicate` from lib/similarity.js: threshold 0.7, return the most
similar item when its rounded score is at least 70. -/
def checkDuplicate (ctx : List ContextItem) (workspaceId content : String) :
    Option SimilarItem :=
  match findSimilar ctx workspaceId content (7 / 10) with
  | top :: _ => if 70 ≤ top.similarity then some top else none
  | [] => none

/-! ## lib/api.js transport -/

/-- Outcome of the underlying `fetch` as seen by `request` in lib/api.js. -/
inductive FetchResult (α : Type) where
  | ok (data : α)
  | httpError (msg : String)
  | connRefused
  | failure (msg : String)
deriving Repr, DecidableEq

/-- `request` from lib/api.js: a successful response is returned as parsed;
an HTTP-level error or any other rejection propagates as a thrown error;
a connection-refused rejection degrades to the given offline sentinel. -/
def request {α : Type} (sentinel : α) (f : FetchResult α) : Except String α :=
  match f with
  | .ok d => .ok d
  | .httpError m => .error m
  | .connRefused => .ok sentinel
  | .failure m => .error m

/-- JS truthiness of an `error` field: `undefined`/`null`/`""` are falsy. -/
def jsTruthyErr (e : Option String) : Option String :=
  match e with
  | some m => if m = "" then none else some m
  | none => none

/-- An item of a `syncPull` response body. -/
structure RemoteItem where
  id : String
  type : String
  content : String
  tags : List String := []
  scope : Option String := none
  meta : String := ""
  created_at : Time
  updated_at : Time
deriving Repr, DecidableEq

/-- Body of a `syncPull` response, including the offline-sentinel fields. -/
structure PullResponse where
  offline : Bool := false
  error : Option String := none
  items : List RemoteItem := []
deriving Repr, DecidableEq

/-- An entry of the `items` array of a `syncPush` response. -/
structure PushItemRef where
  id : String
deriving Repr, DecidableEq

/-- Body of a `syncPush` response, including the offline-sentinel fields. -/
structure PushResponse where
  offline : Bool := false
  error : Option String := none
  items : List PushItemRef := []
deriving Repr, DecidableEq

/-- Body of a `createWorkspace` response; `id` is `none` when the field is
absent (in particular on the offline sentinel). -/
structure CreateWsResponse where
  offline : Bool := false
  error : Option String := none
  id : Option String := none
deriving Repr, DecidableEq

/-- The offline sentinel value for `syncPull`. -/
def pullSentinel : PullResponse := { offline := true, error := some "API unavailable" }

/-- The offline sentinel value for `syncPush`. -/
def pushSentinel : PushResponse := { offline := true, error := some "API unavailable" }

/-- The offline sentinel value for `createWorkspace`. -/
def createWsSentinel : CreateWsResponse := { offline := true, error := some "API unavailable" }

/-- JS `remote.scope || '*'`: empty and absent strings fall back. -/
def jsOr (s : Option String) (dflt : String) : String :=
  match s with
  | some v => if v = "" then dflt else v
  | none => dflt

/-! ## lib/sync.js -/

/-- The pending-push predicate of lib/sync.js:
`workspace_id = ? AND deleted_at IS NULL AND (synced_at IS NULL OR updated_at > synced_at)`. -/
def needsPushB (workspaceId : String) (c : ContextItem) : Bool :=
  decide (c.workspace_id = workspaceId) && decide (c.deleted_at = none) &&
    (match c.synced_at with
     | none => true
     | some s => decide (s < c.updated_at))

/-- Comparator of `ORDER BY created_at ASC` (stable sort). -/
def byCreatedAsc (a b : ContextItem) : Prop := a.created_at ≤ b.created_at

instance : DecidableRel byCreatedAsc :=
  fun a b => inferInstanceAs (Decidable (a.created_at ≤ b.created_at))

instance : IsTotal ContextItem byCreatedAsc := ⟨fun a b => Nat.le_total a.created_at b.created_at⟩

instance : IsTrans ContextItem byCreatedAsc := ⟨fun _ _ _ h1 h2 => Nat.le_trans h1 h2⟩

/-- The items-needing-push query of `pushChanges`. -/
def pendingItems (ctx : List ContextItem) (workspaceId : String) : List ContextItem :=
  (ctx.filter (needsPushB workspaceId)).insertionSort byCreatedAsc

/-- JS `'...'.replace(pat, '')` on char lists: delete the first occurrence. -/
def dropFirstOccur (pat : List Char) : List Char → List Char
  | [] => []
  | c :: rest =>
    if pat.isPrefixOf (c :: rest) then (c :: rest).drop pat.length
    else c :: dropFirstOccur pat rest

/-- `id.replace('workspace:', '')` from lib/sync.js. -/
def stripWsTag (s : String) : String :=
  String.mk (dropFirstOccur "workspace:".data s.data)

/-- `response.items?.[0]?.id || item.id` (JS `||` also falls back on `""`). -/
def resolveRemoteId (resp : PushResponse) (itemId : String) : String :=
  match resp.items.head? with
  | some r => if r.id = "" then itemId else r.id
  | none => itemId

/-- The per-item success write of `pushChanges`:
`UPDATE context SET remote_id = ?, synced_at = ? WHERE id = ?`. -/
def setSynced (itemId remoteId : String) (now : Time) (c : ContextItem) : ContextItem :=
  if c.id = itemId then { c with remote_id := some remoteId, synced_at := some now } else c

/-- The accumulated result object of `pushChanges`. -/
structure PushResults where
  pushed : Nat := 0
  failed : Nat := 0
  errors : List (String × String) := []
deriving Repr, DecidableEq

/-- Result of `pushChanges`: either the early-return error object or the
per-item results. -/
inductive PushOutcome where
  | error (msg : String)
  | results (r : PushResults)
deriving Repr, DecidableEq

/-- The per-item loop of `pushChanges`.  `pushFetch` gives the transport
outcome of the `api.syncPush` call for a given item id.  A thrown error or
an `error` field on the response records a failure and continues; a success
stamps `remote_id` and `synced_at` on the item's row. -/
def pushLoop (pushFetch : String → FetchResult PushResponse) (now : Time) :
    List ContextItem → List ContextItem → PushResults → List ContextItem × PushResults
  | [], ctx, results => (ctx, results)
  | item :: rest, ctx, results =>
    match request pushSentinel (pushFetch item.id) with
    | .error m =>
        pushLoop pushFetch now rest ctx
          { results with
              failed := results.failed + 1
              errors := results.errors ++ [(item.id, m)] }
    | .ok response =>
        match jsTruthyErr response.error with
        | some m =>
            pushLoop pushFetch now rest ctx
              { results with
                  failed := results.failed + 1
                  errors := results.errors ++ [(item.id, m)] }
        | none =>
            let remoteId := resolveRemoteId response item.id
            pushLoop pushFetch now rest (ctx.map (setSynced item.id remoteId now))
              { results with pushed := results.pushed + 1 }

/-- The ensure-remote-workspace step of `pushChanges`.  For a bound
workspace the stored id is stripped of its `workspace:` tag.  For an
unbound workspace a remote workspace is created first; a thrown transport
error, or the offline sentinel (whose missing `id` makes the
`.replace` access throw), aborts the entire push.  Returns the bare remote
workspace id and whether the local workspace row must be stamped. -/
def ensureRemoteWorkspace (workspace : Workspace)
    (createWsFetch : FetchResult CreateWsResponse) : Except String (String × Bool) :=
  match workspace.remote_id with
  | some rid => .ok (stripWsTag rid, false)
  | none =>
    match request createWsSentinel createWsFetch with
    | .error m => .error ("Failed to create remote workspace: " ++ m)
    | .ok created =>
      match created.id with
      | none => .error
          "Failed to create remote workspace: Cannot read properties of undefined"
      | some cid => .ok (stripWsTag cid, true)

/-- `pushChanges` from lib/sync.js.  The trailing link push only calls the
remote service and swallows all failures; it changes neither local state nor
the returned results, so it has no footprint here. -/
def pushChanges (db : SyncDb) (workspaceId : String) (now : Time)
    (createWsFetch : FetchResult CreateWsResponse)
    (pushFetch : String → FetchResult PushResponse) : SyncDb × PushOutcome :=
  match db.workspaces.find? (fun w => decide (w.id = workspaceId)) with
  | none => (db, .error "Workspace not found")
  | some workspace =>
    match ensureRemoteWorkspace workspace createWsFetch with
    | .error m => (db, .error m)
    | .ok (remoteWorkspaceId, created) =>
      let workspaces :=
        if created then
          db.workspaces.map (fun w =>
            if w.id = workspaceId then
              { w with remote_id := some remoteWorkspaceId, synced_at := some now }
            else w)
        else db.workspaces
      let stepped := pushLoop pushFetch now (pendingItems db.context workspaceId)
        db.context {}
      ({ db with workspaces := workspaces, context := stepped.1 }, .results stepped.2)

/-- The accumulated result object of `pullChanges`. -/
structure PullResults where
  pulled : Nat := 0
  updated : Nat := 0
  skipped : Nat := 0
deriving Repr, DecidableEq

/-- Result of `pullChanges`: either the early-return error object or the
per-item results. -/
inductive PullOutcome where
  | error (msg : String)
  | results (r : PullResults)
deriving Repr, DecidableEq

/-- The identity match of pull:
`SELECT * FROM context WHERE id = ? OR remote_id = ?` (both bound to the
remote item's id). -/
def matchesRemote (remoteId : String) (c : ContextItem) : Bool :=
  decide (c.id = remoteId) || decide (c.remote_id = some remoteId)

/-- The fresh-insert row written by pull for an unknown remote item. -/
def pullInsert (workspaceId : String) (now : Time) (remote : RemoteItem) : ContextItem :=
  { id := remote.id
    workspace_id := workspaceId
    type := remote.type
    content := remote.content
    tags := remote.tags
    scope := jsOr remote.scope "*"
    meta := remote.meta
    remote_id := some remote.id
    created_at := remote.created_at
    updated_at := remote.updated_at
    synced_at := some now
    deleted_at := none }

/-- The overwrite of the last-write-wins update:
`UPDATE context SET type = ?, content = ?, tags = ?, scope = ?, meta = ?,
updated_at = ?, synced_at = ? WHERE id = ?`. -/
def pullOverwrite (remote : RemoteItem) (now : Time) (c : ContextItem) : ContextItem :=
  { c with
    type := remote.type
    content := remote.content
    tags := remote.tags
    scope := jsOr remote.scope "*"
    meta := remote.meta
    updated_at := remote.updated_at
    synced_at := some now }

/-- The body of the per-remote-item loop of `pullChanges`: insert unknown
items fresh, otherwise overwrite iff the remote copy is strictly newer. -/
def pullStep (workspaceId : String) (now : Time)
    (st : List ContextItem × PullResults) (remote : RemoteItem) :
    List ContextItem × PullResults :=
  match st.1.find? (matchesRemote remote.id) with
  | none =>
      (st.1 ++ [pullInsert workspaceId now remote],
       { st.2 with pulled := st.2.pulled + 1 })
  | some localItem =>
      if localItem.updated_at < remote.updated_at then
        (st.1.map (fun c => if c.id = localItem.id then pullOverwrite remote now c else c),
         { st.2 with updated := st.2.updated + 1 })
      else
        (st.1, { st.2 with skipped := st.2.skipped + 1 })

/-- `pullChanges` from lib/sync.js.  The sync watermark query only shapes
the remote request; the response is the `pullFetch` parameter here. -/
def pullChanges (db : SyncDb) (workspaceId : String) (now : Time)
    (pullFetch : FetchResult PullResponse) : SyncDb × PullOutcome :=
  match db.workspaces.find? (fun w => decide (w.id = workspaceId)) with
  | none => (db, .error "Workspace not found")
  | some workspace =>
    match workspace.remote_id with
    | none => (db, .error "Workspace not synced to remote yet. Run push first.")
    | some _ =>
      match request pullSentinel pullFetch with
      | .error m => (db, .error ("Failed to fetch remote changes: " ++ m))
      | .ok remoteItems =>
        match jsTruthyErr remoteItems.error with
        | some m => (db, .error m)
        | none =>
          let stepped := remoteItems.items.foldl (pullStep workspaceId now) (db.context, {})
          ({ db with context := stepped.1 }, .results stepped.2)

/-! ## commands/context.js -/

/-- The fixed `VALID_TYPES` enumeration of commands/context.js. -/
def VALID_TYPES : List String :=
  ["note", "constraint", "decision", "task", "entity", "runbook", "snippet"]

/-- The `context` object of an `api.addContext` response. -/
structure AddContextInner where
  id : String
deriving Repr, DecidableEq

/-- Body of an `api.addContext` response, including the offline-sentinel
fields. -/
structure AddContextResponse where
  offline : Bool := false
  error : Option String := none
  context : Option AddContextInner := none
deriving Repr, DecidableEq

/-- The offline sentinel value for `addContext`. -/
def addContextSentinel : AddContextResponse :=
  { offline := true, error := some "API unavailable" }

/-- Outcome of the `context add` command action. -/
inductive AddOutcome where
  | workspaceNotFound
  | invalidType
  | blocked (dup : SimilarItem)
  | added (id : String)
deriving Repr, DecidableEq

/-- The insert-and-inline-sync tail of `context add`: the local INSERT
(stamping `created_at`/`updated_at`, leaving `remote_id`/`synced_at` NULL),
then the best-effort remote `addContext` whose success makes the command
itself stamp `remote_id` and `synced_at`; a thrown error is swallowed. -/
def contextAddInsert (db : SyncDb) (workspace : Workspace) (content ty : String)
    (tags : List String) (scope : String) (newId : String) (now : Time)
    (addFetch : FetchResult AddContextResponse) : SyncDb × AddOutcome :=
  let inserted : ContextItem :=
    { id := newId
      workspace_id := workspace.id
      type := ty
      content := content
      tags := tags
      scope := scope
      meta := "\x7b\x7d"
      remote_id := none
      created_at := now
      updated_at := now
      synced_at := none
      deleted_at := none }
  let context1 := db.context ++ [inserted]
  let context2 :=
    match request addContextSentinel addFetch with
    | .error _ => context1
    | .ok result =>
      match result.context with
      | some c =>
          if c.id = "" then context1
          else context1.map (fun x =>
            if x.id = newId then { x with remote_id := some c.id, synced_at := some now }
            else x)
      | none => context1
  ({ db with context := context2 }, .added newId)

/-- The `context add` command action: resolve the workspace by name,
validate the type, run the Similarity Guard unless `--force`, then insert. -/
def contextAdd (db : SyncDb) (workspaceName content ty : String)
    (tags : List String) (scope : String) (force : Bool) (newId : String) (now : Time)
    (addFetch : FetchResult AddContextResponse) : SyncDb × AddOutcome :=
  match db.workspaces.find? (fun w => decide (w.name = workspaceName)) with
  | none => (db, .workspaceNotFound)
  | some workspace =>
    if ty ∈ VALID_TYPES then
      if force then contextAddInsert db workspace content ty tags scope newId now addFetch
      else
        match checkDuplicate db.context workspace.id content with
        | some dup => (db, .blocked dup)
        | none => contextAddInsert db workspace content ty tags scope newId now addFetch
    else (db, .invalidType)

/-- The `context list` query and post-filter:
`SELECT * FROM context WHERE workspace_id = ? [AND type = ?]
ORDER BY created_at DESC LIMIT ?`, then the in-memory tag filter. -/
def contextList (ctx : List ContextItem) (workspaceId : String)
    (typeFilter : Option String) (tagFilter : Option String) (limit : Nat) :
    List ContextItem :=
  let rows := ctx.filter (fun c =>
    decide (c.workspace_id = workspaceId) &&
      (match typeFilter with
       | some t => decide (c.type = t)
       | none => true))
  let rows := (rows.insertionSort byCreatedDesc).take limit
  match tagFilter with
  | some tag => rows.filter (fun c => decide (tag ∈ c.tags))
  | none => rows

/-! ## commands/brief.js -/

/-- Comparator of `ORDER BY length(path) DESC` (stable sort). -/
def byPathLenDesc (a b : Mount) : Prop := b.path.length ≤ a.path.length

instance : DecidableRel byPathLenDesc :=
  fun a b => inferInstanceAs (Decidable (b.path.length ≤ a.path.length))

instance : IsTotal Mount byPathLenDesc := ⟨fun a b => Nat.le_total b.path.length a.path.length⟩

instance : IsTrans Mount byPathLenDesc := ⟨fun _ _ _ h1 h2 => Nat.le_trans h2 h1⟩

/-- `findMountForPath` from commands/brief.js: scan mounts by descending
path length, return the first whose path is a string prefix of the target;
`null` when none matches. -/
def findMountForPath (mounts : List Mount) (targetPath : String) : Option Mount :=
  (mounts.insertionSort byPathLenDesc).find? (fun m => jsStartsWith targetPath m.path)

/-- The `CASE type WHEN 'constraint' THEN 1 ...` rank of the brief query. -/
def briefTypeRank (t : String) : Nat :=
  if t = "constraint" then 1 else if t = "decision" then 2 else if t = "note" then 3 else 4

/-- Comparator of the brief query's
`ORDER BY CASE type ... END, created_at DESC`. -/
def byBriefOrder (a b : ContextItem) : Prop :=
  briefTypeRank a.type < briefTypeRank b.type ∨
    (briefTypeRank a.type = briefTypeRank b.type ∧ b.created_at ≤ a.created_at)

instance : DecidableRel byBriefOrder :=
  fun a b => inferInstanceAs (Decidable (briefTypeRank a.type < briefTypeRank b.type ∨
    (briefTypeRank a.type = briefTypeRank b.type ∧ b.created_at ≤ a.created_at)))

/-- The scope filter of `brief`: visible when the item scope is falsy or
`*`, or either path is a string prefix of the other. -/
def scopeVisible (relativePath : String) (item : ContextItem) : Bool :=
  decide (item.scope = "") || decide (item.scope = "*") ||
    jsStartsWith relativePath item.scope || jsStartsWith item.scope relativePath

/-- The tag filter of `brief`: items with no tags always pass; otherwise
some requested tag must be present. -/
def briefTagVisible (filterTags : List String) (item : ContextItem) : Bool :=
  decide (item.tags = []) || filterTags.any (fun t => decide (t ∈ item.tags))

/-- The row-selection pipeline of the `brief` command: the workspace (and
optional type) query, the brief ordering, the scope filter, and the
optional tag filter. -/
def briefItems (ctx : List ContextItem) (workspaceId : String)
    (typeFilter : Option String) (relativePath : String)
    (tagFilter : Option (List String)) : List ContextItem :=
  let rows := ctx.filter (fun c =>
    decide (c.workspace_id = workspaceId) &&
      (match typeFilter with
       | some t => decide (c.type = t)
       | none => true))
  let rows := rows.insertionSort byBriefOrder
  let rows := rows.filter (scopeVisible relativePath)
  match tagFilter with
  | some fts => rows.filter (briefTagVisible fts)
  | none => rows

/-! ## commands/session.js, the `related` command's local traversal -/

/-- `shortId` from lib/output.js: the first 8 characters of an id. -/
def shortId (id : String) : String := String.mk (id.data.take 8)

/-- An entry of the `related` array built by the local traversal (ids are
displayed as short ids, exactly as pushed by the source). -/
structure RelatedEntry where
  id : String
  type : String
  content : String
  tags : List String
  direction : String
  relation : String
  hops : Nat
deriving Repr, DecidableEq

/-- `SELECT * FROM context WHERE id = ?` first-row lookup. -/
def ctxById (ctx : List ContextItem) (i : String) : Option ContextItem :=
  ctx.find? (fun c => decide (c.id = i))

/-- Rows of the hop-1 query: links touching the item, inner-joined against
the context table on both endpoints (a link yields a row only when both
endpoint rows exist). -/
def joinedLinks (ctx : List ContextItem) (links : List LinkRow) (itemId : String) :
    List (LinkRow × ContextItem × ContextItem) :=
  links.filterMap (fun l =>
    if decide (l.from_id = itemId) || decide (l.to_id = itemId) then
      match ctxById ctx l.from_id, ctxById ctx l.to_id with
      | some cf, some ct => some (l, cf, ct)
      | _, _ => none
    else none)

/-- Rows of the hop-2 query: links touching the resolved hop-1 item but not
the seed (`(from = ? OR to = ?) AND from != ? AND to != ?`), joined on both
endpoints. -/
def joinedLinks2 (ctx : List ContextItem) (links : List LinkRow)
    (fullId seedId : String) : List (LinkRow × ContextItem × ContextItem) :=
  links.filterMap (fun l =>
    if (decide (l.from_id = fullId) || decide (l.to_id = fullId)) &&
        decide (¬ l.from_id = seedId) && decide (¬ l.to_id = seedId) then
      match ctxById ctx l.from_id, ctxById ctx l.to_id with
      | some cf, some ct => some (l, cf, ct)
      | _, _ => none
    else none)

/-- One iteration of the traversal loops: orient the link relative to
`itemId`, skip already-seen endpoints, otherwise record the endpoint at the
given hop count (the entry's id is the short id, as in the source). -/
def hopStep (itemId : String) (hops : Nat)
    (acc : List String × List RelatedEntry)
    (row : LinkRow × ContextItem × ContextItem) : List String × List RelatedEntry :=
  let l := row.1
  let isOutbound := decide (l.from_id = itemId)
  let otherId := if isOutbound then l.to_id else l.from_id
  let other := if isOutbound then row.2.2 else row.2.1
  if otherId ∈ acc.1 then acc
  else
    (acc.1 ++ [otherId],
     acc.2 ++ [{ id := shortId otherId
                 type := other.type
                 content := other.content
                 tags := other.tags
                 direction := if isOutbound then "outbound" else "inbound"
                 relation := l.relation
                 hops := hops }])

/-- The depth-2 expansion: for each hop-1 entry, re-resolve its short id
against the context table (`SELECT id FROM context WHERE id LIKE ?`, first
row wins) and fold its second-hop rows. -/
def hop2Expand (ctx : List ContextItem) (links : List LinkRow) (seedId : String)
    (acc : List String × List RelatedEntry) (rel : RelatedEntry) :
    List String × List RelatedEntry :=
  match ctx.find? (fun c => rel.id.data.isPrefixOf c.id.data) with
  | none => acc
  | some row => (joinedLinks2 ctx links row.id seedId).foldl (hopStep row.id 2) acc

/-- The local (offline) branch of the `related` command: clamp depth to
`[1, 2]`, collect hop-1 neighbours with a seen-set seeded with the item
itself, then (at depth 2) expand each hop-1 entry. -/
def relatedLocal (ctx : List ContextItem) (links : List LinkRow)
    (item : ContextItem) (depthOpt : Nat) : List RelatedEntry :=
  let depth := min 2 (max 1 depthOpt)
  let hop1 := (joinedLinks ctx links item.id).foldl (hopStep item.id 1) ([item.id], [])
  if 2 ≤ depth ∧ hop1.2 ≠ [] then
    (hop1.2.foldl (hop2Expand ctx links item.id) hop1).2
  else hop1.2

/-- Specification-side graph reachability: `withinHopsB links n a b` holds
when `b` is reachable from `a` in at most `n` undirected link steps. -/
def withinHopsB (links : List LinkRow) : Nat → String → String → Bool
  | 0, a, b => decide (a = b)
  | n + 1, a, b =>
    decide (a = b) || links.any (fun l =>
      (decide (l.from_id = a) && withinHopsB links n l.to_id b) ||
      (decide (l.to_id = a) && withinHopsB links n l.from_id b))

/-! ## commands/init.js -/

/-- Outcome of the `init` command action. -/
inductive InitOutcome where
  | existing
  | created (id : String)
deriving Repr, DecidableEq

/-- Body of an `api.createWorkspace` response as read by `init`
(`result.workspace?.id`). -/
structure InitWsInner where
  id : String
deriving Repr, DecidableEq

/-- Response envelope of `api.createWorkspace` as read by `init`. -/
structure InitWsResponse where
  offline : Bool := false
  error : Option String := none
  workspace : Option InitWsInner := none
deriving Repr, DecidableEq

/-- The offline sentinel value for the `init` create call. -/
def initWsSentinel : InitWsResponse :=
  { offline := true, error := some "API unavailable" }

/-- The `init` command action: create the workspace locally first (no
`synced_at`), then best-effort create it remotely; on success the command
itself stamps `remote_id` and `synced_at`; a thrown error is swallowed. -/
def initWorkspace (db : SyncDb) (name description : String)
    (newId projectId : String) (now : Time)
    (createFetch : FetchResult InitWsResponse) : SyncDb × InitOutcome :=
  match db.workspaces.find? (fun w => decide (w.name = name)) with
  | some _ => (db, .existing)
  | none =>
    let inserted : Workspace :=
      { id := newId
        name := name
        description := description
        project_id := projectId
        remote_id := none
        created_at := now
        updated_at := now
        synced_at := none
        deleted_at := none }
    let workspaces1 := db.workspaces ++ [inserted]
    let workspaces2 :=
      match request initWsSentinel createFetch with
      | .error _ => workspaces1
      | .ok result =>
        match result.workspace with
        | some w =>
            if w.id = "" then workspaces1
            else workspaces1.map (fun x =>
              if x.id = newId then { x with remote_id := some w.id, synced_at := some now }
              else x)
        | none => workspaces1
    ({ db with workspaces := workspaces2 }, .created newId)

/-! ## Derived definitions and concrete stores used in the statements -/

def c4Ws : Workspace :=
  { id := "w1"
    name := "main"
    remote_id := some "rw"
    created_at := 0
    updated_at := 0 }

def c4Item : ContextItem :=
  { id := "a1"
    workspace_id := "w1"
    type := "note"
    content := "x"
    tags := []
    scope := "*"
    meta := ""
    created_at := 1
    updated_at := 2 }

def c4Db : SyncDb := { workspaces := [c4Ws], context := [c4Item], links := [] }

/-- The id under `result.context?.id` when the inline `addContext` call of
the add command succeeded with a truthy id; `none` otherwise. -/
def addSuccessId (addFetch : FetchResult AddContextResponse) : Option String :=
  match request addContextSentinel addFetch with
  | .error _ => none
  | .ok result =>
    match result.context with
    | some c => if c.id = "" then none else some c.id
    | none => none

def c8Ws : Workspace :=
  { id := "w1"
    name := "main"
    created_at := 0
    updated_at := 0 }

def c8Db : SyncDb := { workspaces := [c8Ws], context := [], links := [] }

def c5WItem : ContextItem :=
  { id := "live1"
    workspace_id := "w1"
    type := "note"
    content := "alive"
    tags := []
    scope := "*"
    meta := ""
    created_at := 1
    updated_at := 2 }

def c5Deleted : ContextItem :=
  { id := "d1"
    workspace_id := "w1"
    type := "note"
    content := "dead"
    tags := []
    scope := "*"
    meta := ""
    created_at := 1
    updated_at := 1
    deleted_at := some 2 }

def c5Seed : ContextItem :=
  { id := "s1"
    workspace_id := "w1"
    type := "note"
    content := "seed"
    tags := []
    scope := "*"
    meta := ""
    created_at := 1
    updated_at := 1 }

def c5DeadNb : ContextItem :=
  { id := "d2"
    workspace_id := "w1"
    type := "note"
    content := "dead neighbour"
    tags := []
    scope := "*"
    meta := ""
    created_at := 1
    updated_at := 1
    deleted_at := some 3 }

def c5Link : LinkRow :=
  { from_id := "s1"
    to_id := "d2"
    relation := "relates_to"
    created_at := 1 }

def c9M1 : Mount := { path := "/repo", workspace_id := "w1" }

def c9M2 : Mount := { path := "/repo/service", workspace_id := "w2" }

def c9MX : Mount := { path := "/elsewhere", workspace_id := "w3" }

/-- Well-formed context table: row ids are pairwise distinct (the `id`
column is the primary key). -/
def CtxWF (ctx : List ContextItem) : Prop := (ctx.map (fun c => c.id)).Nodup

instance (ctx : List ContextItem) : Decidable (CtxWF ctx) :=
  decidable_of_iff ((ctx.map (fun c => c.id)).Nodup) (Iff.of_eq (by unfold CtxWF; rfl))

/-- After a pull step for remote item `r`, the store holds a row matching
`r`'s identity whose `updated_at` is at least `r`'s. -/
def PulledUpTo (ctx : List ContextItem) (r : RemoteItem) : Prop :=
  ∃ c, ctx.find? (matchesRemote r.id) = some c ∧ r.updated_at ≤ c.updated_at

def c2Ws : Workspace :=
  { id := "w1"
    name := "main"
    remote_id := some "rw"
    created_at := 0
    updated_at := 0 }

def c2Db : SyncDb := { workspaces := [c2Ws], context := [], links := [] }

def c2Remote : RemoteItem :=
  { id := "x1"
    type := "note"
    content := "hello"
    created_at := 3
    updated_at := 7 }

def c1Local : ContextItem :=
  { id := "x1"
    workspace_id := "w1"
    type := "note"
    content := "old"
    tags := []
    scope := "*"
    meta := ""
    created_at := 1
    updated_at := 5 }

def c1RemoteNew : RemoteItem :=
  { id := "x1"
    type := "decision"
    content := "new"
    created_at := 1
    updated_at := 9 }

def c1RemoteTie : RemoteItem :=
  { id := "x1"
    type := "decision"
    content := "tie"
    created_at := 1
    updated_at := 5 }

/-- The per-item push verdict of the loop in `pushChanges`: `none` when the
item's push succeeded, `some msg` when the transport threw or the response
carried a truthy `error` field. -/
def pushFailMsg (pushFetch : String → FetchResult PushResponse) (itemId : String) :
    Option String :=
  match request pushSentinel (pushFetch itemId) with
  | .error m => some m
  | .ok response => jsTruthyErr response.error

/-- The remote id stamped on a successfully pushed item
(`response.items?.[0]?.id || item.id`). -/
def pushNewRemoteId (pushFetch : String → FetchResult PushResponse) (itemId : String) :
    String :=
  match request pushSentinel (pushFetch itemId) with
  | .error _ => itemId
  | .ok response => resolveRemoteId response itemId

def c3Ws : Workspace :=
  { id := "w1"
    name := "main"
    remote_id := some "rw"
    created_at := 0
    updated_at := 0 }

def c3ItemA : ContextItem :=
  { id := "a1"
    workspace_id := "w1"
    type := "note"
    content := "A"
    tags := []
    scope := "*"
    meta := ""
    created_at := 1
    updated_at := 2 }

def c3ItemB : ContextItem :=
  { id := "b1"
    workspace_id := "w1"
    type := "note"
    content := "B"
    tags := []
    scope := "*"
    meta := ""
    created_at := 3
    updated_at := 4 }

def c3ItemC : ContextItem :=
  { id := "c1"
    workspace_id := "w1"
    type := "note"
    content := "C"
    tags := []
    scope := "*"
    meta := ""
    created_at := 5
    updated_at := 6 }

def c3Db : SyncDb :=
  { workspaces := [c3Ws], context := [c3ItemA, c3ItemB, c3ItemC], links := [] }

/-- A transport where item `b1` fails with an application error and every
other item succeeds. -/
def c3Fetch : String → FetchResult PushResponse := fun i =>
  if i = "b1" then .ok { error := some "boom" } else .ok { items := [{ id := "rr" }] }

def c6Ws : Workspace :=
  { id := "w1"
    name := "main"
    created_at := 0
    updated_at := 0 }

def c6Db : SyncDb := { workspaces := [c6Ws], context := [], links := [] }

/-- Invariant of the traversal state: the seen list is the seed followed by
the full ids of the reported entries, in order and without repetition; each
such full id has a context row and lies within two hops of the seed. -/
def TravInv (ctx : List ContextItem) (links : List LinkRow) (seedId : String)
    (st : List String × List RelatedEntry) : Prop :=
  ∃ fulls : List String,
    st.1 = seedId :: fulls ∧
    st.2.map (fun e => e.id) = fulls.map shortId ∧
    (seedId :: fulls).Nodup ∧
    (∀ f ∈ fulls, ∃ c ∈ ctx, c.id = f) ∧
    (∀ f ∈ fulls, withinHopsB links 2 seedId f = true)

/-- Invariant of the hop-1 phase: entries carry hop count 1 and full ids
within one hop of the seed, each with a context row. -/
def Trav1Inv (ctx : List ContextItem) (links : List LinkRow) (seedId : String)
    (st : List String × List RelatedEntry) : Prop :=
  seedId ∈ st.1 ∧
  ∀ e ∈ st.2, e.hops = 1 ∧ ∃ full, e.id = shortId full ∧ full ≠ seedId ∧
    withinHopsB links 1 seedId full = true ∧ ∃ c ∈ ctx, c.id = full

def c7Seed : ContextItem :=
  { id := "seed0000"
    workspace_id := "w1"
    type := "note"
    content := "the seed"
    tags := []
    scope := "*"
    meta := ""
    created_at := 1
    updated_at := 1 }

def c7Impostor : ContextItem :=
  { id := "aaaaaaaa-0"
    workspace_id := "w1"
    type := "note"
    content := "impostor"
    tags := []
    scope := "*"
    meta := ""
    created_at := 1
    updated_at := 1 }

def c7Neighbour : ContextItem :=
  { id := "aaaaaaaa-1"
    workspace_id := "w1"
    type := "note"
    content := "neighbour"
    tags := []
    scope := "*"
    meta := ""
    created_at := 1
    updated_at := 1 }

def c7Far : ContextItem :=
  { id := "xfarxfar"
    workspace_id := "w1"
    type := "note"
    content := "far away"
    tags := []
    scope := "*"
    meta := ""
    created_at := 1
    updated_at := 1 }

def c7Ctx : List ContextItem := [c7Seed, c7Impostor, c7Neighbour, c7Far]

def c7Links : List LinkRow :=
  [{ from_id := "seed0000", to_id := "aaaaaaaa-1", relation := "relates_to", created_at := 1 },
   { from_id := "aaaaaaaa-0", to_id := "xfarxfar", relation := "relates_to", created_at := 1 }]

/-! ## Theorems -/

/-! ### Helpers -/

/-- Offline push loop: every item fails with the sentinel's message and the
context is untouched. -/
theorem pushLoop_offline (now : Time) (pending ctx : List ContextItem) (res : PushResults) :
    pushLoop (fun _ => .connRefused) now pending ctx res =
      (ctx, { pushed := res.pushed, failed := res.failed + pending.length,
              errors := res.errors ++ pending.map (fun it => (it.id, "API unavailable")) }) := by
  induction pending generalizing res with
  | nil => simp [pushLoop]
  | cons it rest ih =>
      have h1 : pushLoop (fun _ => .connRefused) now (it :: rest) ctx res =
          pushLoop (fun _ => .connRefused) now rest ctx
            { pushed := res.pushed, failed := res.failed + 1,
              errors := res.errors ++ [(it.id, "API unavailable")] } := rfl
      rw [h1, ih]
      simp [PushResults.mk.injEq]
      omega

/-! ### C4 -/

/-- C4 (amended): connection-refused degrades to the offline sentinel at the
transport; offline push and pull leave the store unchanged; but offline pull
on a bound workspace returns an error result carrying the sentinel's
message, and offline push on a bound workspace records a per-item failure
for every pending item, rather than reporting zero progress. -/
theorem c4_offline_transport :
    (∀ (α : Type) (s : α), request s .connRefused = .ok s) ∧
    pullSentinel.offline = true ∧ pushSentinel.offline = true ∧
    (∀ (db : SyncDb) (w : String) (now : Time),
      (pullChanges db w now .connRefused).1 = db) ∧
    (∀ (db : SyncDb) (w : String) (now : Time) (wk : Workspace) (rid : String),
      db.workspaces.find? (fun x => decide (x.id = w)) = some wk →
      wk.remote_id = some rid →
      (pullChanges db w now .connRefused).2 = .error "API unavailable") ∧
    (∀ (db : SyncDb) (w : String) (now : Time),
      (pushChanges db w now .connRefused (fun _ => .connRefused)).1 = db) ∧
    (∀ (db : SyncDb) (w : String) (now : Time) (wk : Workspace) (rid : String),
      db.workspaces.find? (fun x => decide (x.id = w)) = some wk →
      wk.remote_id = some rid →
      (pushChanges db w now .connRefused (fun _ => .connRefused)).2 =
        .results { pushed := 0, failed := (pendingItems db.context w).length,
                   errors := (pendingItems db.context w).map
                     (fun it => (it.id, "API unavailable")) }) := by
  refine ⟨fun α s => rfl, rfl, rfl, ?_, ?_, ?_, ?_⟩
  · intro db w now
    rcases hf : db.workspaces.find? (fun x => decide (x.id = w)) with _ | wk
    · simp [pullChanges, hf]
    · rcases hr : wk.remote_id with _ | rid
      · simp [pullChanges, hf, hr]
      · simp [pullChanges, hf, hr, request, pullSentinel, jsTruthyErr]
  · intro db w now wk rid hf hr
    simp [pullChanges, hf, hr, request, pullSentinel, jsTruthyErr]
  · intro db w now
    rcases hf : db.workspaces.find? (fun x => decide (x.id = w)) with _ | wk
    · simp [pushChanges, hf]
    · rcases hr : wk.remote_id with _ | rid
      · simp [pushChanges, ensureRemoteWorkspace, hf, hr, request, createWsSentinel]
      · simp [pushChanges, ensureRemoteWorkspace, hf, hr, pushLoop_offline]
  · intro db w now wk rid hf hr
    simp [pushChanges, ensureRemoteWorkspace, hf, hr, pushLoop_offline]

/-- Witness for C4's amended theorem at a concrete bound workspace with one
pending item. -/
theorem c4_offline_transport_witness :
    (pullChanges c4Db "w1" 9 .connRefused).1 = c4Db ∧
    (pullChanges c4Db "w1" 9 .connRefused).2 = .error "API unavailable" ∧
    (pushChanges c4Db "w1" 9 .connRefused (fun _ => .connRefused)).1 = c4Db ∧
    (pushChanges c4Db "w1" 9 .connRefused (fun _ => .connRefused)).2 =
      .results { pushed := 0, failed := 1, errors := [("a1", "API unavailable")] } := by
  obtain ⟨-, -, -, hpull1, hpull2, hpush1, hpush2⟩ := c4_offline_transport
  refine ⟨hpull1 c4Db "w1" 9, hpull2 c4Db "w1" 9 c4Ws "rw" (by decide) (by decide),
    hpush1 c4Db "w1" 9, ?_⟩
  rw [hpush2 c4Db "w1" 9 c4Ws "rw" (by decide) (by decide)]
  decide

/-- Counterexample to C4 as stated: a pull over a connection-refused
transport returns an error result (the sentinel's message), not a
zero-progress result object. -/
theorem c4_counterexample :
    (pullChanges c4Db "w1" 9 .connRefused).2 = .error "API unavailable" ∧
    (∀ (r : PullResults), (pullChanges c4Db "w1" 9 .connRefused).2 ≠ .results r) := by
  constructor
  · decide
  · intro r h
    have h2 : (pullChanges c4Db "w1" 9 .connRefused).2 = .error "API unavailable" := by decide
    rw [h2] at h
    exact PullOutcome.noConfusion h

/-! ### C8 -/

/-- The row appended by the add command's insert-and-inline-sync tail. -/
theorem contextAddInsert_last (db : SyncDb) (ws : Workspace) (content ty : String)
    (tags : List String) (scope : String) (newId : String) (now : Time)
    (addFetch : FetchResult AddContextResponse) :
    ((contextAddInsert db ws content ty tags scope newId now addFetch).1).context.getLast? =
      some { id := newId, workspace_id := ws.id, type := ty, content := content,
             tags := tags, scope := scope, meta := "\x7b\x7d",
             remote_id := addSuccessId addFetch,
             created_at := now, updated_at := now,
             synced_at := (addSuccessId addFetch).map (fun _ => now),
             deleted_at := none } := by
  unfold contextAddInsert addSuccessId
  rcases hreq : request addContextSentinel addFetch with m | result
  · simp [List.getLast?_concat]
  · rcases hctx : result.context with _ | c
    · simp [hctx, List.getLast?_concat]
    · by_cases hid : c.id = ""
      · simp [hctx, hid, List.getLast?_concat]
      · simp [hctx, hid, List.getLast?_concat]

/-- C8 (amended): the local INSERT of a context add stamps `created_at` and
`updated_at` and leaves `remote_id`/`synced_at` NULL; the command then
stamps `remote_id` and `synced_at` itself exactly when its inline
best-effort remote sync succeeds, so `synced_at` is not written exclusively
by the Synchronization Engine. -/
theorem c8_add_write_synced_at (db : SyncDb) (wname content ty : String)
    (tags : List String) (scope : String) (force : Bool) (newId : String) (now : Time)
    (addFetch : FetchResult AddContextResponse) (db' : SyncDb) (nid : String)
    (h : contextAdd db wname content ty tags scope force newId now addFetch =
      (db', .added nid)) :
    ∃ row : ContextItem, db'.context.getLast? = some row ∧ row.id = newId ∧
      row.created_at = now ∧ row.updated_at = now ∧
      row.remote_id = addSuccessId addFetch ∧
      row.synced_at = (addSuccessId addFetch).map (fun _ => now) := by
  unfold contextAdd at h
  split at h
  · simp at h
  · rename_i ws hfind
    split at h
    · have hins : contextAddInsert db ws content ty tags scope newId now addFetch =
          (db', .added nid) := by
        split at h
        · exact h
        · split at h
          · simp at h
          · exact h
      have hlast := contextAddInsert_last db ws content ty tags scope newId now addFetch
      rw [hins] at hlast
      exact ⟨_, hlast, rfl, rfl, rfl, rfl, rfl⟩
    · simp at h

/-- Witness for C8's amended theorem: an offline add leaves `synced_at`
NULL on the inserted row. -/
theorem c8_add_write_synced_at_witness :
    ∃ row : ContextItem,
      ((contextAdd c8Db "main" "hello" "note" [] "*" false "n1" 5
        .connRefused).1).context.getLast? = some row ∧ row.id = "n1" ∧
      row.created_at = 5 ∧ row.updated_at = 5 ∧
      row.remote_id = addSuccessId .connRefused ∧
      row.synced_at = (addSuccessId .connRefused).map (fun _ => 5) :=
  c8_add_write_synced_at c8Db "main" "hello" "note" [] "*" false "n1" 5 .connRefused
    (contextAdd c8Db "main" "hello" "note" [] "*" false "n1" 5 .connRefused).1 "n1"
    (Prod.ext rfl rfl)

/-- Counterexample to C8 as stated: when the add command's inline remote
sync succeeds, the command itself stamps `synced_at` (and `remote_id`) on
the row it just wrote. -/
theorem c8_counterexample :
    ((contextAdd c8Db "main" "hello" "note" [] "*" false "n1" 5
        (.ok { context := some { id := "rc1" } })).1.context.map
      (fun c => (c.id, c.updated_at, c.synced_at, c.remote_id))) =
      [("n1", 5, some 5, some "rc1")] := by decide

/-! ### C5 -/

/-- C5 (amended): soft-deleted rows are excluded from the Similarity
Guard's candidate scan and from the push-pending selection, while remaining
rows of the store; the listing, brief and local graph-traversal read paths
do not filter them. -/
theorem c5_soft_delete_mixed (ctx : List ContextItem) (w : String) :
    (∀ c ∈ similarCandidates ctx w, c.deleted_at = none ∧ c ∈ ctx) ∧
    (∀ c ∈ pendingItems ctx w, c.deleted_at = none ∧ c ∈ ctx) := by
  constructor
  · intro c hc
    unfold similarCandidates at hc
    have h1 := (List.take_sublist _ _).subset hc
    rw [List.mem_insertionSort, List.mem_filter] at h1
    obtain ⟨hmem, hpred⟩ := h1
    simp only [Bool.and_eq_true, decide_eq_true_eq] at hpred
    exact ⟨hpred.2, hmem⟩
  · intro c hc
    unfold pendingItems at hc
    rw [List.mem_insertionSort, List.mem_filter] at hc
    obtain ⟨hmem, hpred⟩ := hc
    unfold needsPushB at hpred
    simp only [Bool.and_eq_true, decide_eq_true_eq] at hpred
    exact ⟨hpred.1.2, hmem⟩

/-- Witness for C5's amended theorem on a one-item store. -/
theorem c5_soft_delete_mixed_witness :
    c5WItem.deleted_at = none ∧ c5WItem ∈ [c5WItem] :=
  (c5_soft_delete_mixed [c5WItem] "w1").1 c5WItem (by decide)

/-- Counterexample to C5 as stated: a soft-deleted row is returned by the
listing query, by the brief selection, and (as a neighbour) by the local
graph traversal, none of which filter `deleted_at`. -/
theorem c5_counterexample :
    c5Deleted.deleted_at = some 2 ∧
    contextList [c5Deleted] "w1" none none 20 = [c5Deleted] ∧
    briefItems [c5Deleted] "w1" none "" none = [c5Deleted] ∧
    c5DeadNb.deleted_at = some 3 ∧
    (relatedLocal [c5Seed, c5DeadNb] [c5Link] c5Seed 1).map
      (fun e => (e.id, e.content, e.hops)) = [("d2", "dead neighbour", 1)] := by
  refine ⟨rfl, by decide, by decide, rfl, by decide⟩

/-! ### C9 -/

/-- In a list sorted by descending path length, `find?` cannot return a
match whose path is strictly shorter than some other matching element. -/
theorem find?_first_longest {L : List Mount} {p : Mount → Bool} {m2 mf : Mount}
    (hs : L.Pairwise byPathLenDesc) (hmem : m2 ∈ L) (hp2 : p m2 = true)
    (hfind : L.find? p = some mf) (hlt : mf.path.length < m2.path.length) : False := by
  induction L with
  | nil => cases hmem
  | cons a t ih =>
    by_cases hpa : p a = true
    · rw [List.find?_cons_of_pos _ hpa] at hfind
      have ha : a = mf := by injection hfind
      rcases List.mem_cons.mp hmem with h2 | hmem2
      · rw [h2, ← ha] at hlt
        exact Nat.lt_irrefl _ hlt
      · have hrel : byPathLenDesc a m2 := List.rel_of_pairwise_cons hs hmem2
        rw [ha] at hrel
        exact Nat.lt_irrefl _ (Nat.lt_of_lt_of_le hlt hrel)
    · rw [List.find?_cons_of_neg _ (by simpa using hpa)] at hfind
      rcases List.mem_cons.mp hmem with h2 | hmem2
      · rw [h2] at hp2
        exact hpa hp2
      · exact ih hs.of_cons hmem2 hfind

/-- C9: among a set of mounts with pairwise-distinct paths, the resolver
returns the unique longest mount path that prefixes the query (covering the
ancestor-descendant case P1 strictly below P2), and returns no workspace
when no mount path prefixes the query. -/
theorem c9_longest_prefix_mount (mounts : List Mount) (targetPath : String) (m2 : Mount)
    (hnodup : (mounts.map Mount.path).Nodup)
    (hmem : m2 ∈ mounts) (hmatch : jsStartsWith targetPath m2.path = true)
    (hlongest : ∀ m ∈ mounts, jsStartsWith targetPath m.path = true → m.path ≠ m2.path →
      m.path.length < m2.path.length) :
    findMountForPath mounts targetPath = some m2 ∧
    (∀ mounts2 : List Mount, (∀ m ∈ mounts2, jsStartsWith targetPath m.path = false) →
      findMountForPath mounts2 targetPath = none) := by
  constructor
  · unfold findMountForPath
    have hsorted : (mounts.insertionSort byPathLenDesc).Pairwise byPathLenDesc :=
      List.sorted_insertionSort byPathLenDesc mounts
    have hmemL : m2 ∈ mounts.insertionSort byPathLenDesc :=
      (List.mem_insertionSort byPathLenDesc).mpr hmem
    rcases hfind : (mounts.insertionSort byPathLenDesc).find?
        (fun m => jsStartsWith targetPath m.path) with _ | mf
    · exact absurd (List.find?_eq_none.mp hfind m2 hmemL) (by simp [hmatch])
    · have hpf := List.find?_some hfind
      have hmf : mf ∈ mounts :=
        (List.mem_insertionSort byPathLenDesc).mp (List.mem_of_find?_eq_some hfind)
      by_cases heq : mf.path = m2.path
      · have hEq : mf = m2 := List.inj_on_of_nodup_map hnodup hmf hmem heq
        rw [← hEq]
        exact hfind
      · exact (find?_first_longest hsorted hmemL hmatch hfind
          (hlongest mf hmf hpf heq)).elim
  · intro mounts2 hnone
    unfold findMountForPath
    rw [List.find?_eq_none]
    intro m hm
    rw [hnone m ((List.mem_insertionSort _).mp hm)]
    simp

/-- Witness for C9 at concrete overlapping mounts: the deeper mount wins,
and a mount set with no prefix match resolves to none. -/
theorem c9_longest_prefix_mount_witness :
    findMountForPath [c9M1, c9M2] "/repo/service/api" = some c9M2 ∧
    findMountForPath [c9MX] "/repo/service/api" = none := by
  obtain ⟨h1, h2⟩ := c9_longest_prefix_mount [c9M1, c9M2] "/repo/service/api" c9M2
    (by decide) (by decide) (by decide) (by decide)
  exact ⟨h1, h2 [c9MX] (by decide)⟩

/-! ### Well-formedness and find? helpers -/

/-- `find?` commutes with a map whose function does not change the
predicate's verdict. -/
theorem find?_map_pred_inv {α : Type} (p : α → Bool) (f : α → α) (l : List α)
    (hf : ∀ a, p (f a) = p a) : (l.map f).find? p = (l.find? p).map f := by
  rw [List.find?_map]
  have hcomp : p ∘ f = p := funext hf
  rw [hcomp]

/-- Two rows of a well-formed context table with the same id are equal. -/
theorem eq_of_mem_of_id_eq {ctx : List ContextItem} (hwf : CtxWF ctx)
    {a b : ContextItem} (ha : a ∈ ctx) (hb : b ∈ ctx) (h : a.id = b.id) : a = b :=
  List.inj_on_of_nodup_map hwf ha hb h

/-! ### Pull-step machinery -/

/-- Step equation: unknown remote item, fresh insert. -/
theorem pullStep_none (w : String) (now : Time) (ctx : List ContextItem)
    (res : PullResults) (r : RemoteItem)
    (hfind : ctx.find? (matchesRemote r.id) = none) :
    pullStep w now (ctx, res) r =
      (ctx ++ [pullInsert w now r], { res with pulled := res.pulled + 1 }) := by
  unfold pullStep
  simp [hfind]

/-- Step equation: known remote item, strictly newer remote copy. -/
theorem pullStep_update (w : String) (now : Time) (ctx : List ContextItem)
    (res : PullResults) (r : RemoteItem) (localItem : ContextItem)
    (hfind : ctx.find? (matchesRemote r.id) = some localItem)
    (hlt : localItem.updated_at < r.updated_at) :
    pullStep w now (ctx, res) r =
      (ctx.map (fun c => if c.id = localItem.id then pullOverwrite r now c else c),
       { res with updated := res.updated + 1 }) := by
  unfold pullStep
  simp [hfind, hlt]

/-- Step equation: known remote item, not newer. -/
theorem pullStep_skip (w : String) (now : Time) (ctx : List ContextItem)
    (res : PullResults) (r : RemoteItem) (localItem : ContextItem)
    (hfind : ctx.find? (matchesRemote r.id) = some localItem)
    (hge : ¬ localItem.updated_at < r.updated_at) :
    pullStep w now (ctx, res) r = (ctx, { res with skipped := res.skipped + 1 }) := by
  unfold pullStep
  simp [hfind, hge]

/-- The identity-match predicate is blind to the fields the pull overwrite
changes. -/
theorem matchesRemote_overwrite (rid j : String) (r : RemoteItem) (now : Time)
    (c : ContextItem) :
    matchesRemote rid (if c.id = j then pullOverwrite r now c else c) =
      matchesRemote rid c := by
  by_cases h : c.id = j <;> simp [h, pullOverwrite, matchesRemote]

/-- The pull overwrite map preserves row ids. -/
theorem overwrite_map_ids (ctx : List ContextItem) (j : String) (r : RemoteItem)
    (now : Time) :
    (ctx.map (fun c => if c.id = j then pullOverwrite r now c else c)).map
        (fun c => c.id) = ctx.map (fun c => c.id) := by
  rw [List.map_map]
  congr 1
  funext c
  by_cases h : c.id = j <;> simp [h, pullOverwrite]

/-- One pull step keeps the context table well-formed. -/
theorem pullStep_wf (w : String) (now : Time) (ctx : List ContextItem)
    (res : PullResults) (r : RemoteItem) (hwf : CtxWF ctx) :
    CtxWF (pullStep w now (ctx, res) r).1 := by
  rcases hfind : ctx.find? (matchesRemote r.id) with _ | localItem
  · have hnot : ∀ c ∈ ctx, c.id ≠ r.id := by
      intro c hc he
      have hfalse := List.find?_eq_none.mp hfind c hc
      simp [matchesRemote, he] at hfalse
    rw [pullStep_none w now ctx res r hfind]
    unfold CtxWF
    rw [List.map_append]
    simp only [List.map_cons, List.map_nil]
    rw [List.nodup_append]
    refine ⟨hwf, List.nodup_singleton _, ?_⟩
    intro x hx hy
    simp only [pullInsert, List.mem_singleton] at hy
    obtain ⟨c, hc, rfl⟩ := List.mem_map.mp hx
    exact hnot c hc (by rw [hy])
  · by_cases hlt : localItem.updated_at < r.updated_at
    · rw [pullStep_update w now ctx res r localItem hfind hlt]
      unfold CtxWF
      rw [overwrite_map_ids]
      exact hwf
    · rw [pullStep_skip w now ctx res r localItem hfind hlt]
      exact hwf

/-- A pull step establishes `PulledUpTo` for its own remote item. -/
theorem pullStep_establishes (w : String) (now : Time) (ctx : List ContextItem)
    (res : PullResults) (r : RemoteItem) :
    PulledUpTo (pullStep w now (ctx, res) r).1 r := by
  rcases hfind : ctx.find? (matchesRemote r.id) with _ | localItem
  · rw [pullStep_none w now ctx res r hfind]
    refine ⟨pullInsert w now r, ?_, le_refl _⟩
    rw [List.find?_append, hfind]
    simp [pullInsert, matchesRemote]
  · by_cases hlt : localItem.updated_at < r.updated_at
    · rw [pullStep_update w now ctx res r localItem hfind hlt]
      refine ⟨pullOverwrite r now localItem, ?_, ?_⟩
      · rw [find?_map_pred_inv _ _ _ (matchesRemote_overwrite r.id localItem.id r now), hfind]
        simp
      · simp [pullOverwrite]
    · rw [pullStep_skip w now ctx res r localItem hfind hlt]
      exact ⟨localItem, hfind, Nat.le_of_not_lt hlt⟩

/-- A pull step preserves `PulledUpTo` for every other remote item. -/
theorem pullStep_preserves (w : String) (now : Time) (ctx : List ContextItem)
    (res : PullResults) (r r2 : RemoteItem) (hwf : CtxWF ctx)
    (h : PulledUpTo ctx r2) : PulledUpTo (pullStep w now (ctx, res) r).1 r2 := by
  obtain ⟨c, hc, hle⟩ := h
  rcases hfind : ctx.find? (matchesRemote r.id) with _ | localItem
  · rw [pullStep_none w now ctx res r hfind]
    exact ⟨c, by rw [List.find?_append, hc]; rfl, hle⟩
  · by_cases hlt : localItem.updated_at < r.updated_at
    · rw [pullStep_update w now ctx res r localItem hfind hlt]
      refine ⟨if c.id = localItem.id then pullOverwrite r now c else c, ?_, ?_⟩
      · dsimp only
        rw [find?_map_pred_inv _ _ _ (matchesRemote_overwrite r2.id localItem.id r now), hc]
        rfl
      · by_cases hid : c.id = localItem.id
        · have hceq : c = localItem := eq_of_mem_of_id_eq hwf
            (List.mem_of_find?_eq_some hc) (List.mem_of_find?_eq_some hfind) hid
          rw [if_pos hid]
          simp only [pullOverwrite]
          rw [hceq] at hle
          exact Nat.le_of_lt (Nat.lt_of_le_of_lt hle hlt)
        · rw [if_neg hid]
          exact hle
    · rw [pullStep_skip w now ctx res r localItem hfind hlt]
      exact ⟨c, hc, hle⟩

/-- The pull fold keeps the context table well-formed. -/
theorem pullFold_wf (w : String) (now : Time) (items : List RemoteItem)
    (st : List ContextItem × PullResults) (hwf : CtxWF st.1) :
    CtxWF (items.foldl (pullStep w now) st).1 := by
  induction items generalizing st with
  | nil => exact hwf
  | cons r rest ih =>
      rw [List.foldl_cons]
      obtain ⟨ctx, res⟩ := st
      exact ih _ (pullStep_wf w now ctx res r hwf)

/-- The pull fold preserves `PulledUpTo`. -/
theorem pullFold_preserves (w : String) (now : Time) (items : List RemoteItem)
    (st : List ContextItem × PullResults) (r2 : RemoteItem) (hwf : CtxWF st.1)
    (h : PulledUpTo st.1 r2) : PulledUpTo (items.foldl (pullStep w now) st).1 r2 := by
  induction items generalizing st with
  | nil => exact h
  | cons r rest ih =>
      rw [List.foldl_cons]
      obtain ⟨ctx, res⟩ := st
      exact ih _ (pullStep_wf w now ctx res r hwf)
        (pullStep_preserves w now ctx res r r2 hwf h)

/-- After a full pull fold, `PulledUpTo` holds for every processed item. -/
theorem pullFold_establishes_all (w : String) (now : Time) (items : List RemoteItem)
    (st : List ContextItem × PullResults) (hwf : CtxWF st.1) :
    ∀ r ∈ items, PulledUpTo (items.foldl (pullStep w now) st).1 r := by
  induction items generalizing st with
  | nil => intro r hr; cases hr
  | cons r0 rest ih =>
      intro r hr
      rw [List.foldl_cons]
      obtain ⟨ctx, res⟩ := st
      rcases List.mem_cons.mp hr with h2 | hmem2
      · subst h2
        exact pullFold_preserves w now rest _ r (pullStep_wf w now ctx res r hwf)
          (pullStep_establishes w now ctx res r)
      · exact ih _ (pullStep_wf w now ctx res r0 hwf) r hmem2

/-- A pull fold over items the store already holds at matching-or-newer
timestamps only counts skips and leaves the context unchanged. -/
theorem pullFold_skips (w : String) (now : Time) (items : List RemoteItem)
    (ctx : List ContextItem) (res : PullResults)
    (h : ∀ r ∈ items, PulledUpTo ctx r) :
    items.foldl (pullStep w now) (ctx, res) =
      (ctx, { res with skipped := res.skipped + items.length }) := by
  induction items generalizing res with
  | nil => simp
  | cons r rest ih =>
      rw [List.foldl_cons]
      obtain ⟨c, hc, hle⟩ := h r (List.mem_cons_self r rest)
      rw [pullStep_skip w now ctx res r c hc (Nat.not_lt.mpr hle),
        ih _ (fun r2 h2 => h r2 (List.mem_cons_of_mem r h2))]
      simp [PullResults.mk.injEq]
      omega

/-! ### C2 -/

/-- C2: pulling the same remote snapshot twice is idempotent — on a
well-formed store, after a successful first pull the second pull over the
same items inserts nothing, updates nothing, skips every item, and leaves
the local state identical. -/
theorem c2_pull_idempotent (db : SyncDb) (workspaceId : String) (now1 now2 : Time)
    (pullFetch : FetchResult PullResponse) (wk : Workspace) (rid : String)
    (resp : PullResponse)
    (hwf : CtxWF db.context)
    (hfindw : db.workspaces.find? (fun x => decide (x.id = workspaceId)) = some wk)
    (hbound : wk.remote_id = some rid)
    (hreq : request pullSentinel pullFetch = .ok resp)
    (hnoerr : jsTruthyErr resp.error = none) :
    (pullChanges (pullChanges db workspaceId now1 pullFetch).1 workspaceId now2 pullFetch).1 =
      (pullChanges db workspaceId now1 pullFetch).1 ∧
    (pullChanges (pullChanges db workspaceId now1 pullFetch).1 workspaceId now2 pullFetch).2 =
      .results { pulled := 0, updated := 0, skipped := resp.items.length } := by
  have hdb1 : (pullChanges db workspaceId now1 pullFetch).1 =
      { db with
        context := (resp.items.foldl (pullStep workspaceId now1) (db.context, {})).1 } := by
    simp [pullChanges, hfindw, hbound, hreq, hnoerr]
  have hall : ∀ r ∈ resp.items,
      PulledUpTo (resp.items.foldl (pullStep workspaceId now1) (db.context, {})).1 r :=
    pullFold_establishes_all workspaceId now1 resp.items (db.context, {}) hwf
  have hskips := pullFold_skips workspaceId now2 resp.items
    (resp.items.foldl (pullStep workspaceId now1) (db.context, {})).1
    {} hall
  constructor
  · rw [hdb1]
    simp [pullChanges, hfindw, hbound, hreq, hnoerr, hskips]
  · rw [hdb1]
    simp [pullChanges, hfindw, hbound, hreq, hnoerr, hskips]

/-- Witness for C2 at a concrete store and snapshot. -/
theorem c2_pull_idempotent_witness :
    (pullChanges (pullChanges c2Db "w1" 10 (.ok { items := [c2Remote] })).1 "w1" 11
        (.ok { items := [c2Remote] })).1 =
      (pullChanges c2Db "w1" 10 (.ok { items := [c2Remote] })).1 ∧
    (pullChanges (pullChanges c2Db "w1" 10 (.ok { items := [c2Remote] })).1 "w1" 11
        (.ok { items := [c2Remote] })).2 =
      .results { pulled := 0, updated := 0, skipped := 1 } :=
  c2_pull_idempotent c2Db "w1" 10 11 (.ok { items := [c2Remote] }) c2Ws "rw"
    { items := [c2Remote] } (by decide) (by decide) (by decide) rfl rfl

/-! ### C1 -/

/-- C1: last-write-wins on pull — when a remote item shares identity with a
local row, the pull step overwrites the row's mutable fields and stamps
`synced_at` exactly when the remote `updated_at` is strictly greater;
otherwise (ties included) the local store is left completely unchanged. -/
theorem c1_pull_last_write_wins (workspaceId : String) (now : Time)
    (ctx : List ContextItem) (results : PullResults) (remote : RemoteItem)
    (localItem : ContextItem)
    (hfind : ctx.find? (matchesRemote remote.id) = some localItem) :
    (localItem.updated_at < remote.updated_at →
      (pullStep workspaceId now (ctx, results) remote).1 =
        ctx.map (fun c => if c.id = localItem.id then pullOverwrite remote now c else c) ∧
      (pullStep workspaceId now (ctx, results) remote).2 =
        { results with updated := results.updated + 1 } ∧
      (pullOverwrite remote now localItem).id = localItem.id ∧
      (pullOverwrite remote now localItem).workspace_id = localItem.workspace_id ∧
      (pullOverwrite remote now localItem).remote_id = localItem.remote_id ∧
      (pullOverwrite remote now localItem).created_at = localItem.created_at ∧
      (pullOverwrite remote now localItem).deleted_at = localItem.deleted_at ∧
      (pullOverwrite remote now localItem).type = remote.type ∧
      (pullOverwrite remote now localItem).content = remote.content ∧
      (pullOverwrite remote now localItem).tags = remote.tags ∧
      (pullOverwrite remote now localItem).scope = jsOr remote.scope "*" ∧
      (pullOverwrite remote now localItem).meta = remote.meta ∧
      (pullOverwrite remote now localItem).updated_at = remote.updated_at ∧
      (pullOverwrite remote now localItem).synced_at = some now) ∧
    (remote.updated_at ≤ localItem.updated_at →
      (pullStep workspaceId now (ctx, results) remote).1 = ctx ∧
      (pullStep workspaceId now (ctx, results) remote).2 =
        { results with skipped := results.skipped + 1 }) := by
  constructor
  · intro hlt
    rw [pullStep_update workspaceId now ctx results remote localItem hfind hlt]
    simp [pullOverwrite]
  · intro hle
    rw [pullStep_skip workspaceId now ctx results remote localItem hfind (Nat.not_lt.mpr hle)]
    simp

/-- Witness for C1 at concrete rows: a strictly newer remote overwrites and
stamps `synced_at`; a tying remote leaves the row untouched. -/
theorem c1_pull_last_write_wins_witness :
    (pullStep "w1" 20 ([c1Local], {}) c1RemoteNew).1 =
      [pullOverwrite c1RemoteNew 20 c1Local] ∧
    (pullOverwrite c1RemoteNew 20 c1Local).synced_at = some 20 ∧
    (pullStep "w1" 20 ([c1Local], {}) c1RemoteTie).1 = [c1Local] ∧
    (pullStep "w1" 20 ([c1Local], {}) c1RemoteTie).2 =
      { pulled := 0, updated := 0, skipped := 1 } := by
  obtain ⟨hup, -⟩ := c1_pull_last_write_wins "w1" 20 [c1Local] {} c1RemoteNew c1Local
    (by decide)
  obtain ⟨h1, -, -⟩ := hup (by decide)
  obtain ⟨-, hskip⟩ := c1_pull_last_write_wins "w1" 20 [c1Local] {} c1RemoteTie c1Local
    (by decide)
  obtain ⟨h3, h4⟩ := hskip (by decide)
  refine ⟨?_, rfl, h3, h4⟩
  rw [h1]
  decide

/-! ### Push-loop machinery -/

/-- Step equation of the push loop, phrased through the per-item verdict. -/
theorem pushLoop_cons (f : String → FetchResult PushResponse) (now : Time)
    (it : ContextItem) (rest ctx : List ContextItem) (res : PushResults) :
    pushLoop f now (it :: rest) ctx res =
      match pushFailMsg f it.id with
      | some m => pushLoop f now rest ctx
          { res with failed := res.failed + 1, errors := res.errors ++ [(it.id, m)] }
      | none => pushLoop f now rest (ctx.map (setSynced it.id (pushNewRemoteId f it.id) now))
          { res with pushed := res.pushed + 1 } := by
  conv_lhs => rw [pushLoop]
  unfold pushFailMsg pushNewRemoteId
  rcases hreq : request pushSentinel (f it.id) with m | resp
  · simp only [hreq]
  · rcases herr : jsTruthyErr resp.error with _ | m
    · simp only [hreq, herr]
    · simp only [hreq, herr]

/-- `setSynced` never changes a row's id. -/
theorem setSynced_id (j rid : String) (now : Time) (c : ContextItem) :
    (setSynced j rid now c).id = c.id := by
  unfold setSynced
  by_cases h : c.id = j <;> simp [h]

/-- Mapping `setSynced` for a different id leaves a row lookup unchanged. -/
theorem find?_map_setSynced_other (ctx : List ContextItem) (i j rid : String)
    (now : Time) (hne : j ≠ i) :
    (ctx.map (setSynced j rid now)).find? (fun c => decide (c.id = i)) =
      ctx.find? (fun c => decide (c.id = i)) := by
  rw [find?_map_pred_inv _ _ _ (fun c => by rw [setSynced_id])]
  rcases h : ctx.find? (fun c => decide (c.id = i)) with _ | c
  · rw [h]
    rfl
  · rw [h]
    have hc : c.id = i := by simpa using List.find?_some h
    simp [setSynced, hc, hne.symm]

/-- Mapping `setSynced` for the looked-up id rewrites the found row's
`remote_id` and `synced_at` and nothing else. -/
theorem find?_map_setSynced_self (ctx : List ContextItem) (i rid : String) (now : Time) :
    (ctx.map (setSynced i rid now)).find? (fun c => decide (c.id = i)) =
      (ctx.find? (fun c => decide (c.id = i))).map
        (fun c => { c with remote_id := some rid, synced_at := some now }) := by
  rw [find?_map_pred_inv _ _ _ (fun c => by rw [setSynced_id])]
  rcases h : ctx.find? (fun c => decide (c.id = i)) with _ | c
  · rw [h]
    rfl
  · rw [h]
    have hc : c.id = i := by simpa using List.find?_some h
    simp [setSynced, hc]

/-- The push loop never touches rows whose id is not among the processed
items. -/
theorem pushLoop_untouched (f : String → FetchResult PushResponse) (now : Time)
    (pending : List ContextItem) (ctx : List ContextItem) (res : PushResults)
    (i : String) (h : ∀ it ∈ pending, it.id ≠ i) :
    (pushLoop f now pending ctx res).1.find? (fun c => decide (c.id = i)) =
      ctx.find? (fun c => decide (c.id = i)) := by
  induction pending generalizing ctx res with
  | nil => rfl
  | cons hd tl ih =>
      rw [pushLoop_cons]
      rcases hmsg : pushFailMsg f hd.id with _ | m
      · rw [ih _ _ (fun it hit => h it (List.mem_cons_of_mem hd hit)),
          find?_map_setSynced_other ctx i hd.id _ now (h hd (List.mem_cons_self hd tl))]
      · exact ih _ _ (fun it hit => h it (List.mem_cons_of_mem hd hit))

/-- The push loop only appends to the error list. -/
theorem pushLoop_errors_mono (f : String → FetchResult PushResponse) (now : Time)
    (pending : List ContextItem) (ctx : List ContextItem) (res : PushResults) :
    ∃ suffix, (pushLoop f now pending ctx res).2.errors = res.errors ++ suffix := by
  induction pending generalizing ctx res with
  | nil => exact ⟨[], by simp [pushLoop]⟩
  | cons hd tl ih =>
      rw [pushLoop_cons]
      rcases hmsg : pushFailMsg f hd.id with _ | m
      · exact ih _ _
      · obtain ⟨s, hs⟩ := ih ctx
          { res with failed := res.failed + 1, errors := res.errors ++ [(hd.id, m)] }
        exact ⟨(hd.id, m) :: s, by rw [hs]; simp⟩

/-- The push loop accounts for every processed item exactly once. -/
theorem pushLoop_counts (f : String → FetchResult PushResponse) (now : Time)
    (pending : List ContextItem) (ctx : List ContextItem) (res : PushResults) :
    (pushLoop f now pending ctx res).2.pushed + (pushLoop f now pending ctx res).2.failed =
      res.pushed + res.failed + pending.length := by
  induction pending generalizing ctx res with
  | nil => simp [pushLoop]
  | cons hd tl ih =>
      rw [pushLoop_cons]
      rcases hmsg : pushFailMsg f hd.id with _ | m
      · rw [ih]
        simp
        omega
      · rw [ih]
        simp
        omega

/-- Per-item effect of the push loop on a well-formed batch: a failed item's
row is untouched and its failure is recorded; a successful item's row gets
exactly `remote_id` and `synced_at` rewritten. -/
theorem pushLoop_row (f : String → FetchResult PushResponse) (now : Time)
    (pending : List ContextItem) (ctx : List ContextItem) (res : PushResults)
    (it : ContextItem) (hmem : it ∈ pending)
    (hnodup : (pending.map (fun c => c.id)).Nodup) :
    (∀ m, pushFailMsg f it.id = some m →
      (pushLoop f now pending ctx res).1.find? (fun c => decide (c.id = it.id)) =
        ctx.find? (fun c => decide (c.id = it.id)) ∧
      (it.id, m) ∈ (pushLoop f now pending ctx res).2.errors) ∧
    (pushFailMsg f it.id = none →
      (pushLoop f now pending ctx res).1.find? (fun c => decide (c.id = it.id)) =
        (ctx.find? (fun c => decide (c.id = it.id))).map
          (fun c => { c with
            remote_id := some (pushNewRemoteId f it.id)
            synced_at := some now })) := by
  induction pending generalizing ctx res with
  | nil => cases hmem
  | cons hd tl ih =>
      have htl_ne : hd.id ∉ tl.map (fun c => c.id) := (List.nodup_cons.mp hnodup).1
      have htl_nodup : (tl.map (fun c => c.id)).Nodup := (List.nodup_cons.mp hnodup).2
      rcases List.mem_cons.mp hmem with h2 | hmem2
      · subst h2
        have hothers : ∀ x ∈ tl, x.id ≠ it.id := by
          intro x hx he
          exact htl_ne (by simpa [← he] using List.mem_map_of_mem (fun c => c.id) hx)
        constructor
        · intro m hmsg
          rw [pushLoop_cons, hmsg]
          constructor
          · exact pushLoop_untouched f now tl ctx _ it.id hothers
          · obtain ⟨s, hs⟩ := pushLoop_errors_mono f now tl ctx
              { res with failed := res.failed + 1, errors := res.errors ++ [(it.id, m)] }
            rw [hs]
            simp
        · intro hmsg
          rw [pushLoop_cons, hmsg]
          rw [pushLoop_untouched f now tl _ _ it.id hothers]
          exact find?_map_setSynced_self ctx it.id _ now
      · have hne : hd.id ≠ it.id := by
          intro he
          exact htl_ne (by simpa [he] using List.mem_map_of_mem (fun c => c.id) hmem2)
        rw [pushLoop_cons]
        rcases hmsg : pushFailMsg f hd.id with _ | m
        · have hih := ih (ctx.map (setSynced hd.id (pushNewRemoteId f hd.id) now))
            { res with pushed := res.pushed + 1 } hmem2 htl_nodup
          rw [find?_map_setSynced_other ctx it.id hd.id _ now hne] at hih
          exact hih
        · exact ih ctx _ hmem2 htl_nodup

/-! ### pendingItems facts -/

/-- A pending item is a store row satisfying the pending predicate. -/
theorem mem_pendingItems {ctx : List ContextItem} {w : String} {it : ContextItem} :
    it ∈ pendingItems ctx w ↔ it ∈ ctx ∧ needsPushB w it = true := by
  unfold pendingItems
  rw [List.mem_insertionSort, List.mem_filter]

/-- On a well-formed store the pending batch has pairwise-distinct ids. -/
theorem pendingItems_nodup {ctx : List ContextItem} (w : String) (hwf : CtxWF ctx) :
    ((pendingItems ctx w).map (fun c => c.id)).Nodup := by
  unfold pendingItems
  have hperm : ((ctx.filter (needsPushB w)).insertionSort byCreatedAsc).Perm
      (ctx.filter (needsPushB w)) := List.perm_insertionSort _ _
  have hwf2 : (ctx.map (fun c => c.id)).Nodup := hwf
  refine (hperm.map (fun c => c.id)).nodup_iff.mpr ?_
  exact ((List.filter_sublist ctx).map (fun c => c.id)).nodup hwf2

/-- A well-formed store finds a member row by its own id. -/
theorem find?_id_of_mem {ctx : List ContextItem} {c : ContextItem}
    (hwf : CtxWF ctx) (hmem : c ∈ ctx) :
    ctx.find? (fun x => decide (x.id = c.id)) = some c := by
  induction ctx with
  | nil => cases hmem
  | cons a t ih =>
      rcases List.mem_cons.mp hmem with h2 | hmem2
      · subst h2
        rw [List.find?_cons_of_pos _ (by simp)]
      · have hane : ¬ (a.id = c.id) := by
          intro he
          exact (List.nodup_cons.mp hwf).1
            (by simpa [he] using List.mem_map_of_mem (fun c => c.id) hmem2)
        rw [List.find?_cons_of_neg _ (by simpa using hane)]
        exact ih (List.nodup_cons.mp hwf).2 hmem2

/-- The result of `pushChanges` on a bound workspace. -/
theorem pushChanges_bound (db : SyncDb) (workspaceId : String) (now : Time)
    (createWsFetch : FetchResult CreateWsResponse)
    (pushFetch : String → FetchResult PushResponse) (wk : Workspace) (rid : String)
    (hfindw : db.workspaces.find? (fun x => decide (x.id = workspaceId)) = some wk)
    (hbound : wk.remote_id = some rid) :
    pushChanges db workspaceId now createWsFetch pushFetch =
      ({ db with context :=
          (pushLoop pushFetch now (pendingItems db.context workspaceId) db.context {}).1 },
       .results (pushLoop pushFetch now (pendingItems db.context workspaceId) db.context {}).2) := by
  simp [pushChanges, ensureRemoteWorkspace, hfindw, hbound]

/-! ### C3 -/

/-- C3: push partial-failure isolation — on a bound workspace, every pending
item whose per-item push fails keeps its exact pre-push row and has its
failure recorded in the error list, every pending item whose push succeeds
gets `remote_id` and `synced_at` stamped, and the batch always completes
with pushed + failed equal to the number of pending items. -/
theorem c3_push_partial_failure (db : SyncDb) (workspaceId : String) (now : Time)
    (createWsFetch : FetchResult CreateWsResponse)
    (pushFetch : String → FetchResult PushResponse) (wk : Workspace) (rid : String)
    (hwf : CtxWF db.context)
    (hfindw : db.workspaces.find? (fun x => decide (x.id = workspaceId)) = some wk)
    (hbound : wk.remote_id = some rid) :
    ∃ results : PushResults,
      (pushChanges db workspaceId now createWsFetch pushFetch).2 = .results results ∧
      results.pushed + results.failed = (pendingItems db.context workspaceId).length ∧
      ∀ it ∈ pendingItems db.context workspaceId,
        (∀ m, pushFailMsg pushFetch it.id = some m →
          (pushChanges db workspaceId now createWsFetch pushFetch).1.context.find?
              (fun c => decide (c.id = it.id)) = some it ∧
          (it.id, m) ∈ results.errors) ∧
        (pushFailMsg pushFetch it.id = none →
          (pushChanges db workspaceId now createWsFetch pushFetch).1.context.find?
              (fun c => decide (c.id = it.id)) =
            some { it with
              remote_id := some (pushNewRemoteId pushFetch it.id)
              synced_at := some now }) := by
  rw [pushChanges_bound db workspaceId now createWsFetch pushFetch wk rid hfindw hbound]
  refine ⟨_, rfl, ?_, ?_⟩
  · have := pushLoop_counts pushFetch now (pendingItems db.context workspaceId) db.context {}
    simpa using this
  · intro it hmem
    have hrow := pushLoop_row pushFetch now (pendingItems db.context workspaceId)
      db.context {} it hmem (pendingItems_nodup workspaceId hwf)
    have hctx_find : db.context.find? (fun x => decide (x.id = it.id)) = some it :=
      find?_id_of_mem hwf (mem_pendingItems.mp hmem).1
    constructor
    · intro m hmsg
      obtain ⟨h1, h2⟩ := hrow.1 m hmsg
      rw [h1, hctx_find]
      exact ⟨rfl, h2⟩
    · intro hmsg
      have h1 := hrow.2 hmsg
      rw [hctx_find] at h1
      exact h1

/-! ### C10 -/

/-- C10: push frame effect — a successfully pushed item's row changes only
in `remote_id` and `synced_at`; its type, content, tags, scope, meta,
created_at and updated_at are untouched (the record update fixes every
other field), and with `synced_at` stamped to the current time the row no
longer satisfies the pending-push predicate. -/
theorem c10_push_frame (db : SyncDb) (workspaceId : String) (now : Time)
    (createWsFetch : FetchResult CreateWsResponse)
    (pushFetch : String → FetchResult PushResponse) (wk : Workspace) (rid : String)
    (it : ContextItem)
    (hwf : CtxWF db.context)
    (hfindw : db.workspaces.find? (fun x => decide (x.id = workspaceId)) = some wk)
    (hbound : wk.remote_id = some rid)
    (hmem : it ∈ pendingItems db.context workspaceId)
    (hok : pushFailMsg pushFetch it.id = none)
    (hclock : it.updated_at ≤ now) :
    (pushChanges db workspaceId now createWsFetch pushFetch).1.context.find?
        (fun c => decide (c.id = it.id)) =
      some { it with
        remote_id := some (pushNewRemoteId pushFetch it.id)
        synced_at := some now } ∧
    needsPushB workspaceId
      { it with
        remote_id := some (pushNewRemoteId pushFetch it.id)
        synced_at := some now } = false := by
  constructor
  · rw [pushChanges_bound db workspaceId now createWsFetch pushFetch wk rid hfindw hbound]
    have hrow := pushLoop_row pushFetch now (pendingItems db.context workspaceId)
      db.context {} it hmem (pendingItems_nodup workspaceId hwf)
    have h1 := hrow.2 hok
    rw [find?_id_of_mem hwf (mem_pendingItems.mp hmem).1] at h1
    exact h1
  · unfold needsPushB
    simp [Nat.not_lt.mpr hclock]

/-! ### Concrete witnesses -/

/-- Witness for C3: with pending items A, B, C and B failing, A and C are
marked synced, B's row is untouched, B's failure is recorded, and the batch
completes. -/
theorem c3_push_partial_failure_witness :
    ∃ results : PushResults,
      (pushChanges c3Db "w1" 50 (.ok {}) c3Fetch).2 = .results results ∧
      results.pushed + results.failed = (pendingItems c3Db.context "w1").length ∧
      ∀ it ∈ pendingItems c3Db.context "w1",
        (∀ m, pushFailMsg c3Fetch it.id = some m →
          (pushChanges c3Db "w1" 50 (.ok {}) c3Fetch).1.context.find?
              (fun c => decide (c.id = it.id)) = some it ∧
          (it.id, m) ∈ results.errors) ∧
        (pushFailMsg c3Fetch it.id = none →
          (pushChanges c3Db "w1" 50 (.ok {}) c3Fetch).1.context.find?
              (fun c => decide (c.id = it.id)) =
            some { it with
              remote_id := some (pushNewRemoteId c3Fetch it.id)
              synced_at := some 50 }) :=
  c3_push_partial_failure c3Db "w1" 50 (.ok {}) c3Fetch c3Ws "rw"
    (by decide) (by decide) (by decide)

/-- Witness for C10 at item A of the same batch. -/
theorem c10_push_frame_witness :
    (pushChanges c3Db "w1" 50 (.ok {}) c3Fetch).1.context.find?
        (fun c => decide (c.id = c3ItemA.id)) =
      some { c3ItemA with
        remote_id := some (pushNewRemoteId c3Fetch c3ItemA.id)
        synced_at := some 50 } ∧
    needsPushB "w1"
      { c3ItemA with
        remote_id := some (pushNewRemoteId c3Fetch c3ItemA.id)
        synced_at := some 50 } = false :=
  c10_push_frame c3Db "w1" 50 (.ok {}) c3Fetch c3Ws "rw" c3ItemA
    (by decide) (by decide) (by decide) (by decide) (by decide) (by decide)

/-! ### Similarity score bounds -/

/-- Identical content scores exactly 1. -/
theorem textSimilarity_self (c : String) : textSimilarity c c = 1 := by
  unfold textSimilarity
  simp

/-- Jaccard similarity of a dedup'd set against any set is at most 1. -/
theorem jaccardSimilarity_le_one (s1 s2 : List String) (h1 : s1.Nodup) :
    jaccardSimilarity s1 s2 ≤ 1 := by
  unfold jaccardSimilarity
  by_cases hu : ((s1 ++ s2).dedup).length = 0
  · simp [hu]
  · rw [if_neg hu]
    apply div_le_one_of_le₀
    · have hsub : (s1.filter (fun x => decide (x ∈ s2))) ⊆ (s1 ++ s2).dedup := by
        intro x hx
        rw [List.mem_dedup]
        exact List.mem_append_left _ (List.mem_of_mem_filter hx)
      have hnd : (s1.filter (fun x => decide (x ∈ s2))).Nodup := h1.filter _
      exact_mod_cast (hnd.subperm hsub).length_le
    · positivity

/-- Every similarity score is at most 1. -/
theorem textSimilarity_le_one (t1 t2 : String) : textSimilarity t1 t2 ≤ 1 := by
  unfold textSimilarity
  by_cases h1 : normalize t1 = normalize t2
  · simp [h1]
  · rw [if_neg h1]
    by_cases h2 : (normalize t2).data <:+: (normalize t1).data ∨
        (normalize t1).data <:+: (normalize t2).data
    · rw [if_pos h2]
      by_cases hl : (normalize t1).length < (normalize t2).length
      · rw [if_pos hl, if_pos hl]
        apply div_le_one_of_le₀
        · exact_mod_cast Nat.le_of_lt hl
        · positivity
      · rw [if_neg hl, if_neg hl]
        apply div_le_one_of_le₀
        · exact_mod_cast Nat.le_of_not_lt hl
        · positivity
    · rw [if_neg h2]
      exact jaccardSimilarity_le_one _ _ (List.nodup_dedup _)

/-- A score at most 1 rounds to a percentage at most 100. -/
theorem jsRound_le_100 {q : ℚ} (h : q ≤ 1) : jsRound (q * 100) ≤ 100 := by
  unfold jsRound
  have hle : q * 100 + 1 / 2 ≤ (100 : ℚ) + 1 / 2 := by linarith
  calc ⌊q * 100 + 1 / 2⌋ ≤ ⌊(100 : ℚ) + 1 / 2⌋ := Int.floor_le_floor hle
    _ = 100 := by
      rw [Int.floor_eq_iff]
      constructor <;> norm_num

/-- A perfect score rounds to exactly 100. -/
theorem jsRound_100 : jsRound ((1 : ℚ) * 100) = 100 := by
  unfold jsRound
  rw [Int.floor_eq_iff]
  constructor <;> norm_num

/-! ### findSimilar facts -/

/-- Every entry findSimilar returns carries a score of at most 100. -/
theorem findSimilar_sim_le (ctx : List ContextItem) (w content : String) (th : ℚ) :
    ∀ e ∈ findSimilar ctx w content th, e.similarity ≤ 100 := by
  intro e he
  unfold findSimilar at he
  rw [List.mem_insertionSort, List.mem_filterMap] at he
  obtain ⟨item, -, heq⟩ := he
  by_cases hth : th ≤ textSimilarity content item.content
  · rw [if_pos hth] at heq
    injection heq with heq2
    rw [← heq2]
    exact jsRound_le_100 (textSimilarity_le_one content item.content)
  · rw [if_neg hth] at heq
    cases heq

/-- A candidate with identical content contributes a 100-percent entry. -/
theorem findSimilar_exact_mem (ctx : List ContextItem) (w content : String) (th : ℚ)
    (item : ContextItem) (hcand : item ∈ similarCandidates ctx w)
    (hsim : textSimilarity content item.content = 1) (hth : th ≤ 1) :
    ({ id := item.id, type := item.type, content := item.content, tags := item.tags,
       similarity := 100 } : SimilarItem) ∈ findSimilar ctx w content th := by
  unfold findSimilar
  rw [List.mem_insertionSort, List.mem_filterMap]
  refine ⟨item, hcand, ?_⟩
  rw [hsim, if_pos hth, jsRound_100]

/-- The head of findSimilar dominates every entry. -/
theorem findSimilar_head_max (ctx : List ContextItem) (w content : String) (th : ℚ)
    (top : SimilarItem) (rest : List SimilarItem)
    (h : findSimilar ctx w content th = top :: rest) :
    ∀ e ∈ findSimilar ctx w content th, e.similarity ≤ top.similarity := by
  have hs : (findSimilar ctx w content th).Sorted bySimilarityDesc := by
    unfold findSimilar
    exact List.sorted_insertionSort _ _
  intro e he
  rw [h] at hs he
  rcases List.mem_cons.mp he with h2 | he2
  · rw [h2]
  · exact List.rel_of_sorted_cons hs e he2

/-- With an exact-content candidate in the scan window, `checkDuplicate`
reports a match at similarity exactly 100. -/
theorem checkDuplicate_exact (ctx : List ContextItem) (w content : String)
    (item : ContextItem) (hcand : item ∈ similarCandidates ctx w)
    (hsim : textSimilarity content item.content = 1) :
    ∃ d, checkDuplicate ctx w content = some d ∧ d.similarity = 100 := by
  have hmem := findSimilar_exact_mem ctx w content (7 / 10) item hcand hsim (by norm_num)
  unfold checkDuplicate
  rcases h : findSimilar ctx w content (7 / 10) with _ | ⟨top, rest⟩
  · rw [h] at hmem
    cases hmem
  · have hmax := findSimilar_head_max ctx w content (7 / 10) top rest h
    have h100 : (100 : ℤ) ≤ top.similarity := by
      have := hmax _ hmem
      simpa using this
    have hle : top.similarity ≤ 100 := by
      have := findSimilar_sim_le ctx w content (7 / 10) top
      rw [h] at this
      exact this (List.mem_cons_self top rest)
    have heq : top.similarity = 100 := le_antisymm hle h100
    refine ⟨top, ?_, heq⟩
    show (if 70 ≤ top.similarity then some top else none) = some top
    rw [if_pos (by rw [heq]; norm_num : (70 : ℤ) ≤ top.similarity)]

/-- A row of the workspace that is not deleted is scanned whenever the
workspace holds at most 100 live rows. -/
theorem mem_similarCandidates_of_count (ctx : List ContextItem) (w : String)
    (item : ContextItem) (hmem : item ∈ ctx) (hws : item.workspace_id = w)
    (hdel : item.deleted_at = none)
    (hcount : (ctx.filter (fun c =>
      decide (c.workspace_id = w) && decide (c.deleted_at = none))).length ≤ 100) :
    item ∈ similarCandidates ctx w := by
  unfold similarCandidates
  have hmF : item ∈ ctx.filter (fun c =>
      decide (c.workspace_id = w) && decide (c.deleted_at = none)) :=
    List.mem_filter.mpr ⟨hmem, by simp [hws, hdel]⟩
  have hlen : ((ctx.filter (fun c =>
      decide (c.workspace_id = w) && decide (c.deleted_at = none))).insertionSort
        byCreatedDesc).length ≤ 100 := by
    rw [(List.perm_insertionSort _ _).length_eq]
    exact hcount
  rw [List.take_of_length_le hlen, List.mem_insertionSort]
  exact hmF

/-! ### contextAdd structure -/

/-- An `added` outcome of the add command factors through the insert tail
for the workspace the command resolved. -/
theorem contextAdd_added_inv (db : SyncDb) (wname content ty : String)
    (tags : List String) (scope : String) (force : Bool) (newId : String) (now : Time)
    (addFetch : FetchResult AddContextResponse) (db' : SyncDb) (nid : String)
    (h : contextAdd db wname content ty tags scope force newId now addFetch =
      (db', .added nid)) :
    ∃ ws, db.workspaces.find? (fun w => decide (w.name = wname)) = some ws ∧
      contextAddInsert db ws content ty tags scope newId now addFetch =
        (db', .added nid) := by
  unfold contextAdd at h
  split at h
  · simp at h
  · rename_i ws hfindeq
    split at h
    · refine ⟨ws, hfindeq, ?_⟩
      split at h
      · exact h
      · split at h
        · simp at h
        · exact h
    · simp at h

/-- The insert tail: outcome and workspace-table frame, and every old row
with a different id survives. -/
theorem contextAddInsert_frame (db : SyncDb) (ws : Workspace) (content ty : String)
    (tags : List String) (scope : String) (newId : String) (now : Time)
    (addFetch : FetchResult AddContextResponse) :
    (contextAddInsert db ws content ty tags scope newId now addFetch).2 = .added newId ∧
    (contextAddInsert db ws content ty tags scope newId now addFetch).1.workspaces =
      db.workspaces ∧
    (∀ c ∈ db.context, c.id ≠ newId →
      c ∈ (contextAddInsert db ws content ty tags scope newId now addFetch).1.context) := by
  unfold contextAddInsert
  refine ⟨?_, ?_, ?_⟩
  · rcases request addContextSentinel addFetch with m | result
    · rfl
    · rcases result.context with _ | c
      · rfl
      · by_cases hid : c.id = "" <;> simp [hid]
  · rcases request addContextSentinel addFetch with m | result
    · rfl
    · rcases result.context with _ | c
      · rfl
      · by_cases hid : c.id = "" <;> simp [hid]
  · intro c hc hne
    rcases request addContextSentinel addFetch with m | result
    · dsimp only
      exact List.mem_append_left _ hc
    · rcases hcc : result.context with _ | cc
      · dsimp only
        rw [hcc]
        exact List.mem_append_left _ hc
      · dsimp only
        rw [hcc]
        by_cases hid : cc.id = ""
        · dsimp only
          rw [if_pos hid]
          exact List.mem_append_left _ hc
        · dsimp only
          rw [if_neg hid]
          have hfc : (if c.id = newId
              then { c with remote_id := some cc.id, synced_at := some now } else c) = c :=
            if_neg hne
          rw [← hfc]
          exact List.mem_map_of_mem _ (List.mem_append_left _ hc)

/-- The row appended by the add command's insert tail (same shape as the
source INSERT plus the optional inline-sync stamp), as a member. -/
theorem contextAddInsert_new_row (db : SyncDb) (ws : Workspace) (content ty : String)
    (tags : List String) (scope : String) (newId : String) (now : Time)
    (addFetch : FetchResult AddContextResponse) :
    ∃ row ∈ (contextAddInsert db ws content ty tags scope newId now addFetch).1.context,
      row.id = newId ∧ row.workspace_id = ws.id ∧ row.content = content ∧
      row.deleted_at = none := by
  unfold contextAddInsert
  rcases request addContextSentinel addFetch with m | result
  · exact ⟨_, List.mem_append_right _ (List.mem_singleton.mpr rfl), rfl, rfl, rfl, rfl⟩
  · rcases hcc : result.context with _ | cc
    · dsimp only
      rw [hcc]
      exact ⟨_, List.mem_append_right _ (List.mem_singleton.mpr rfl), rfl, rfl, rfl, rfl⟩
    · dsimp only
      rw [hcc]
      by_cases hid : cc.id = ""
      · dsimp only
        rw [if_pos hid]
        exact ⟨_, List.mem_append_right _ (List.mem_singleton.mpr rfl), rfl, rfl, rfl, rfl⟩
      · dsimp only
        rw [if_neg hid]
        refine ⟨_, List.mem_map_of_mem _ (List.mem_append_right _
          (List.mem_singleton.mpr rfl)), ?_⟩
        simp

/-- The blocked branch of the add command: a duplicate verdict aborts with
the matched item and leaves the store untouched. -/
theorem contextAdd_blocked (db : SyncDb) (wname content ty : String)
    (tags : List String) (scope : String) (newId : String) (now : Time)
    (addFetch : FetchResult AddContextResponse) (ws : Workspace) (dup : SimilarItem)
    (hfind : db.workspaces.find? (fun w => decide (w.name = wname)) = some ws)
    (hty : ty ∈ VALID_TYPES)
    (hdup : checkDuplicate db.context ws.id content = some dup) :
    contextAdd db wname content ty tags scope false newId now addFetch =
      (db, .blocked dup) := by
  simp [contextAdd, hfind, hty, hdup]

/-- The forced branch of the add command goes straight to the insert tail. -/
theorem contextAdd_forced (db : SyncDb) (wname content ty : String)
    (tags : List String) (scope : String) (newId : String) (now : Time)
    (addFetch : FetchResult AddContextResponse) (ws : Workspace)
    (hfind : db.workspaces.find? (fun w => decide (w.name = wname)) = some ws)
    (hty : ty ∈ VALID_TYPES) :
    contextAdd db wname content ty tags scope true newId now addFetch =
      contextAddInsert db ws content ty tags scope newId now addFetch := by
  simp [contextAdd, hfind, hty]

/-! ### C6 -/

/-- C6: duplicate round-trip — after a successful add of content `C`,
re-adding `C` without `--force` is blocked by the Similarity Guard with the
matched item reported at similarity exactly 100 and the store unchanged,
while re-adding `C` with `--force` persists a second, distinct item next to
the first (provided the workspace's live rows fit the 100-item scan window
and the new id is fresh). -/
theorem c6_duplicate_round_trip (db : SyncDb) (wname C ty1 ty2 ty3 : String)
    (tags1 tags2 tags3 : List String) (scope1 scope2 scope3 : String)
    (force1 : Bool) (id1 id2 id3 : String) (now1 now2 now3 : Time)
    (f1 f2 f3 : FetchResult AddContextResponse) (db1 : SyncDb) (ws : Workspace)
    (hfind : db.workspaces.find? (fun w => decide (w.name = wname)) = some ws)
    (h1 : contextAdd db wname C ty1 tags1 scope1 force1 id1 now1 f1 = (db1, .added id1))
    (hty2 : ty2 ∈ VALID_TYPES) (hty3 : ty3 ∈ VALID_TYPES)
    (hcount : (db1.context.filter (fun c =>
      decide (c.workspace_id = ws.id) && decide (c.deleted_at = none))).length ≤ 100)
    (hfresh : ∀ c ∈ db1.context, c.id ≠ id3) :
    (∃ d, contextAdd db1 wname C ty2 tags2 scope2 false id2 now2 f2 =
        (db1, .blocked d) ∧ d.similarity = 100) ∧
    (∃ db2, contextAdd db1 wname C ty3 tags3 scope3 true id3 now3 f3 =
        (db2, .added id3) ∧
      ∃ a ∈ db2.context, ∃ b ∈ db2.context, a.id ≠ b.id ∧
        a.content = C ∧ b.content = C) := by
  obtain ⟨ws1, hfind1, hins1⟩ := contextAdd_added_inv db wname C ty1 tags1 scope1 force1
    id1 now1 f1 db1 id1 h1
  have hws1 : ws1 = ws := by
    rw [hfind] at hfind1
    injection hfind1 with h
    exact h.symm
  rw [hws1] at hins1
  have hframe := contextAddInsert_frame db ws C ty1 tags1 scope1 id1 now1 f1
  obtain ⟨row, hrowmem, hrowid, hrowws, hrowc, hrowdel⟩ :=
    contextAddInsert_new_row db ws C ty1 tags1 scope1 id1 now1 f1
  rw [hins1] at hrowmem
  have hfind' : db1.workspaces.find? (fun w => decide (w.name = wname)) = some ws := by
    have hw : db1.workspaces = db.workspaces := by
      have := hframe.2.1
      rw [hins1] at this
      exact this
    rw [hw]
    exact hfind
  have hcand : row ∈ similarCandidates db1.context ws.id :=
    mem_similarCandidates_of_count db1.context ws.id row hrowmem hrowws hrowdel hcount
  have hsim : textSimilarity C row.content = 1 := by
    rw [hrowc]
    exact textSimilarity_self C
  obtain ⟨d, hd, hd100⟩ := checkDuplicate_exact db1.context ws.id C row hcand hsim
  constructor
  · exact ⟨d, contextAdd_blocked db1 wname C ty2 tags2 scope2 id2 now2 f2 ws d
      hfind' hty2 hd, hd100⟩
  · refine ⟨(contextAddInsert db1 ws C ty3 tags3 scope3 id3 now3 f3).1, ?_, ?_⟩
    · rw [contextAdd_forced db1 wname C ty3 tags3 scope3 id3 now3 f3 ws hfind' hty3]
      have h2 := (contextAddInsert_frame db1 ws C ty3 tags3 scope3 id3 now3 f3).1
      exact Prod.ext rfl h2
    · obtain ⟨b, hbmem, hbid, -, hbc, -⟩ :=
        contextAddInsert_new_row db1 ws C ty3 tags3 scope3 id3 now3 f3
      have hamem : row ∈ (contextAddInsert db1 ws C ty3 tags3 scope3 id3 now3 f3).1.context :=
        (contextAddInsert_frame db1 ws C ty3 tags3 scope3 id3 now3 f3).2.2 row hrowmem
          (hfresh row hrowmem)
      refine ⟨row, hamem, b, hbmem, ?_, hrowc, hbc⟩
      rw [hbid]
      exact hfresh row hrowmem

/-- Witness for C6 on a concrete store: add, re-add blocked at 100,
forced re-add persists both. -/
theorem c6_duplicate_round_trip_witness :
    (∃ d, contextAdd (contextAdd c6Db "main" "api returns json" "note" [] "*" false
          "n1" 3 .connRefused).1
        "main" "api returns json" "note" [] "*" false "n2" 4 .connRefused =
        ((contextAdd c6Db "main" "api returns json" "note" [] "*" false
          "n1" 3 .connRefused).1, .blocked d) ∧ d.similarity = 100) ∧
    (∃ db2, contextAdd (contextAdd c6Db "main" "api returns json" "note" [] "*" false
          "n1" 3 .connRefused).1
        "main" "api returns json" "note" [] "*" true "n3" 5 .connRefused =
        (db2, .added "n3") ∧
      ∃ a ∈ db2.context, ∃ b ∈ db2.context, a.id ≠ b.id ∧
        a.content = "api returns json" ∧ b.content = "api returns json") :=
  c6_duplicate_round_trip c6Db "main" "api returns json" "note" "note" "note"
    [] [] [] "*" "*" "*" false "n1" "n2" "n3" 3 4 5 .connRefused .connRefused .connRefused
    (contextAdd c6Db "main" "api returns json" "note" [] "*" false "n1" 3 .connRefused).1
    c6Ws (by decide) (Prod.ext rfl rfl) (by decide) (by decide) (by decide) (by decide)

/-! ### Reachability facts -/

/-- Reachability is reflexive at every bound. -/
theorem withinHopsB_refl (links : List LinkRow) (n : Nat) (a : String) :
    withinHopsB links n a a = true := by
  cases n with
  | zero => simp [withinHopsB]
  | succ n => simp [withinHopsB]

/-- One more hop can only reach more. -/
theorem withinHopsB_mono (links : List LinkRow) (n : Nat) (a b : String)
    (h : withinHopsB links n a b = true) : withinHopsB links (n + 1) a b = true := by
  induction n generalizing a with
  | zero =>
      unfold withinHopsB at h ⊢
      rw [Bool.or_eq_true]
      left
      exact h
  | succ n ih =>
      unfold withinHopsB at h ⊢
      rw [Bool.or_eq_true] at h ⊢
      rcases h with h | h
      · left; exact h
      · right
        rw [List.any_eq_true] at h ⊢
        obtain ⟨l, hl, hcond⟩ := h
        refine ⟨l, hl, ?_⟩
        rw [Bool.or_eq_true] at hcond ⊢
        rcases hcond with hc | hc
        · left
          rw [Bool.and_eq_true] at hc ⊢
          exact ⟨hc.1, ih _ hc.2⟩
        · right
          rw [Bool.and_eq_true] at hc ⊢
          exact ⟨hc.1, ih _ hc.2⟩

/-- Appending one link step at the far end of a reachable path. -/
theorem withinHopsB_snoc (links : List LinkRow) (n : Nat) (a m b : String)
    (h1 : withinHopsB links n a m = true) (l : LinkRow) (hl : l ∈ links)
    (hadj : (l.from_id = m ∧ l.to_id = b) ∨ (l.to_id = m ∧ l.from_id = b)) :
    withinHopsB links (n + 1) a b = true := by
  induction n generalizing a with
  | zero =>
      have ham : a = m := by simpa [withinHopsB] using h1
      subst ham
      unfold withinHopsB
      rw [Bool.or_eq_true]
      right
      rw [List.any_eq_true]
      refine ⟨l, hl, ?_⟩
      rw [Bool.or_eq_true]
      rcases hadj with ⟨hf, ht⟩ | ⟨hf, ht⟩
      · left
        rw [Bool.and_eq_true, ht]
        exact ⟨by simp [hf], withinHopsB_refl links 0 b⟩
      · right
        rw [Bool.and_eq_true, ht]
        exact ⟨by simp [hf], withinHopsB_refl links 0 b⟩
  | succ n ih =>
      unfold withinHopsB at h1
      rw [Bool.or_eq_true] at h1
      rcases h1 with h1 | h1
      · have ham : a = m := by simpa using h1
        subst ham
        have hone : withinHopsB links 1 a b = true := by
          unfold withinHopsB
          rw [Bool.or_eq_true]
          right
          rw [List.any_eq_true]
          refine ⟨l, hl, ?_⟩
          rw [Bool.or_eq_true]
          rcases hadj with ⟨hf, ht⟩ | ⟨hf, ht⟩
          · left
            rw [Bool.and_eq_true, ht]
            exact ⟨by simp [hf], withinHopsB_refl links 0 b⟩
          · right
            rw [Bool.and_eq_true, ht]
            exact ⟨by simp [hf], withinHopsB_refl links 0 b⟩
        have : ∀ k, withinHopsB links (k + 1) a b = true := by
          intro k
          induction k with
          | zero => exact hone
          | succ k ihk => exact withinHopsB_mono links (k + 1) a b ihk
        exact this (n + 1)
      · rw [List.any_eq_true] at h1
        obtain ⟨l2, hl2, hcond⟩ := h1
        rw [Bool.or_eq_true] at hcond
        show withinHopsB links (n + 1 + 1) a b = true
        unfold withinHopsB
        rw [Bool.or_eq_true]
        right
        rw [List.any_eq_true]
        refine ⟨l2, hl2, ?_⟩
        rw [Bool.or_eq_true]
        rcases hcond with hc | hc
        · left
          rw [Bool.and_eq_true] at hc ⊢
          exact ⟨hc.1, ih _ hc.2⟩
        · right
          rw [Bool.and_eq_true] at hc ⊢
          exact ⟨hc.1, ih _ hc.2⟩

/-- A short id is a character-prefix of the id it abbreviates. -/
theorem shortId_isPrefix (s : String) :
    (shortId s).data.isPrefixOf s.data = true := by
  unfold shortId
  rw [List.isPrefixOf_iff_prefix]
  exact List.take_prefix 8 s.data

/-! ### Join-row facts -/

/-- Shape of every row produced by the hop-1 join. -/
theorem mem_joinedLinks {ctx : List ContextItem} {links : List LinkRow} {itemId : String}
    {row : LinkRow × ContextItem × ContextItem} (h : row ∈ joinedLinks ctx links itemId) :
    row.1 ∈ links ∧ (row.1.from_id = itemId ∨ row.1.to_id = itemId) ∧
    row.2.1 ∈ ctx ∧ row.2.2 ∈ ctx ∧
    row.2.1.id = row.1.from_id ∧ row.2.2.id = row.1.to_id := by
  unfold joinedLinks at h
  rw [List.mem_filterMap] at h
  obtain ⟨l, hl, heq⟩ := h
  by_cases hcond : (decide (l.from_id = itemId) || decide (l.to_id = itemId)) = true
  · rw [if_pos hcond] at heq
    rcases hcf : ctxById ctx l.from_id with _ | cf
    · rw [hcf] at heq
      rcases hct : ctxById ctx l.to_id with _ | ct <;> rw [hct] at heq <;> cases heq
    · rw [hcf] at heq
      rcases hct : ctxById ctx l.to_id with _ | ct
      · rw [hct] at heq
        cases heq
      · rw [hct] at heq
        injection heq with heq2
        subst heq2
        refine ⟨hl, by simpa using hcond, ?_, ?_, ?_, ?_⟩
        · exact List.mem_of_find?_eq_some hcf
        · exact List.mem_of_find?_eq_some hct
        · simpa using List.find?_some hcf
        · simpa using List.find?_some hct
  · rw [if_neg hcond] at heq
    cases heq

/-- Shape of every row produced by the hop-2 join. -/
theorem mem_joinedLinks2 {ctx : List ContextItem} {links : List LinkRow}
    {fullId seedId : String} {row : LinkRow × ContextItem × ContextItem}
    (h : row ∈ joinedLinks2 ctx links fullId seedId) :
    row.1 ∈ links ∧ (row.1.from_id = fullId ∨ row.1.to_id = fullId) ∧
    row.2.1 ∈ ctx ∧ row.2.2 ∈ ctx ∧
    row.2.1.id = row.1.from_id ∧ row.2.2.id = row.1.to_id := by
  unfold joinedLinks2 at h
  rw [List.mem_filterMap] at h
  obtain ⟨l, hl, heq⟩ := h
  by_cases hcond : ((decide (l.from_id = fullId) || decide (l.to_id = fullId)) &&
      decide (¬ l.from_id = seedId) && decide (¬ l.to_id = seedId)) = true
  · rw [if_pos hcond] at heq
    rcases hcf : ctxById ctx l.from_id with _ | cf
    · rw [hcf] at heq
      rcases hct : ctxById ctx l.to_id with _ | ct <;> rw [hct] at heq <;> cases heq
    · rw [hcf] at heq
      rcases hct : ctxById ctx l.to_id with _ | ct
      · rw [hct] at heq
        cases heq
      · rw [hct] at heq
        injection heq with heq2
        subst heq2
        rw [Bool.and_eq_true, Bool.and_eq_true] at hcond
        refine ⟨hl, by simpa using hcond.1.1, ?_, ?_, ?_, ?_⟩
        · exact List.mem_of_find?_eq_some hcf
        · exact List.mem_of_find?_eq_some hct
        · simpa using List.find?_some hcf
        · simpa using List.find?_some hct
  · rw [if_neg hcond] at heq
    cases heq

/-! ### Traversal invariants -/

/-- One traversal iteration preserves the state invariant, for any pivot
within one hop of the seed. -/
theorem hopStep_inv (ctx : List ContextItem) (links : List LinkRow)
    (seedId ρ : String) (hops : Nat)
    (hρ : withinHopsB links 1 seedId ρ = true)
    (row : LinkRow × ContextItem × ContextItem)
    (hrow : row.1 ∈ links ∧ (row.1.from_id = ρ ∨ row.1.to_id = ρ) ∧
      row.2.1 ∈ ctx ∧ row.2.2 ∈ ctx ∧
      row.2.1.id = row.1.from_id ∧ row.2.2.id = row.1.to_id)
    (st : List String × List RelatedEntry)
    (hinv : TravInv ctx links seedId st) :
    TravInv ctx links seedId (hopStep ρ hops st row) := by
  obtain ⟨fulls, h1, h2, h3, h4, h5⟩ := hinv
  obtain ⟨hlmem, hltouch, hcf, hct, hcfid, hctid⟩ := hrow
  unfold hopStep
  dsimp only
  by_cases hseen : (if decide (row.1.from_id = ρ) = true then row.1.to_id
      else row.1.from_id) ∈ st.1
  · rw [if_pos hseen]
    exact ⟨fulls, h1, h2, h3, h4, h5⟩
  · rw [if_neg hseen]
    set otherId := if decide (row.1.from_id = ρ) = true then row.1.to_id
      else row.1.from_id with hother
    have hadj : (row.1.from_id = ρ ∧ row.1.to_id = otherId) ∨
        (row.1.to_id = ρ ∧ row.1.from_id = otherId) := by
      by_cases hf : row.1.from_id = ρ
      · left
        refine ⟨hf, ?_⟩
        rw [hother]
        simp [hf]
      · right
        rcases hltouch with h | h
        · exact absurd h hf
        · refine ⟨h, ?_⟩
          rw [hother]
          simp [hf]
    have hrowOther : ∃ c ∈ ctx, c.id = otherId := by
      rw [hother]
      by_cases hf : row.1.from_id = ρ
      · refine ⟨row.2.2, hct, ?_⟩
        simp [hf, hctid]
      · refine ⟨row.2.1, hcf, ?_⟩
        simp [hf, hcfid]
    have hw2 : withinHopsB links 2 seedId otherId = true :=
      withinHopsB_snoc links 1 seedId ρ otherId hρ row.1 hlmem hadj
    refine ⟨fulls ++ [otherId], ?_, ?_, ?_, ?_, ?_⟩
    · rw [h1]
      simp
    · rw [List.map_append, h2, List.map_append]
      rfl
    · have hform : seedId :: (fulls ++ [otherId]) = (seedId :: fulls) ++ [otherId] := by
        simp
      rw [hform, List.nodup_append]
      refine ⟨h3, List.nodup_singleton _, ?_⟩
      intro x hx hy
      rw [List.mem_singleton] at hy
      subst hy
      rw [h1] at hseen
      exact hseen hx
    · intro f hf
      rcases List.mem_append.mp hf with hf2 | hf2
      · exact h4 f hf2
      · rw [List.mem_singleton] at hf2
        subst hf2
        exact hrowOther
    · intro f hf
      rcases List.mem_append.mp hf with hf2 | hf2
      · exact h5 f hf2
      · rw [List.mem_singleton] at hf2
        subst hf2
        exact hw2

/-- A whole fold of traversal iterations preserves the state invariant. -/
theorem hopFold_inv (ctx : List ContextItem) (links : List LinkRow)
    (seedId ρ : String) (hops : Nat)
    (hρ : withinHopsB links 1 seedId ρ = true)
    (rows : List (LinkRow × ContextItem × ContextItem))
    (hrows : ∀ row ∈ rows, row.1 ∈ links ∧ (row.1.from_id = ρ ∨ row.1.to_id = ρ) ∧
      row.2.1 ∈ ctx ∧ row.2.2 ∈ ctx ∧
      row.2.1.id = row.1.from_id ∧ row.2.2.id = row.1.to_id)
    (st : List String × List RelatedEntry)
    (hinv : TravInv ctx links seedId st) :
    TravInv ctx links seedId (rows.foldl (hopStep ρ hops) st) := by
  induction rows generalizing st with
  | nil => exact hinv
  | cons row rest ih =>
      rw [List.foldl_cons]
      exact ih (fun r hr => hrows r (List.mem_cons_of_mem row hr)) _
        (hopStep_inv ctx links seedId ρ hops hρ row
          (hrows row (List.mem_cons_self row rest)) st hinv)

/-- One hop-1 iteration preserves the hop-1 invariant. -/
theorem hopStep_inv1 (ctx : List ContextItem) (links : List LinkRow) (seedId : String)
    (row : LinkRow × ContextItem × ContextItem)
    (hrow : row.1 ∈ links ∧ (row.1.from_id = seedId ∨ row.1.to_id = seedId) ∧
      row.2.1 ∈ ctx ∧ row.2.2 ∈ ctx ∧
      row.2.1.id = row.1.from_id ∧ row.2.2.id = row.1.to_id)
    (st : List String × List RelatedEntry)
    (hinv : Trav1Inv ctx links seedId st) :
    Trav1Inv ctx links seedId (hopStep seedId 1 st row) := by
  obtain ⟨hseed, hentries⟩ := hinv
  obtain ⟨hlmem, hltouch, hcf, hct, hcfid, hctid⟩ := hrow
  unfold hopStep
  dsimp only
  by_cases hseen : (if decide (row.1.from_id = seedId) = true then row.1.to_id
      else row.1.from_id) ∈ st.1
  · rw [if_pos hseen]
    exact ⟨hseed, hentries⟩
  · rw [if_neg hseen]
    set otherId := if decide (row.1.from_id = seedId) = true then row.1.to_id
      else row.1.from_id with hother
    have hadj : (row.1.from_id = seedId ∧ row.1.to_id = otherId) ∨
        (row.1.to_id = seedId ∧ row.1.from_id = otherId) := by
      by_cases hf : row.1.from_id = seedId
      · refine Or.inl ⟨hf, ?_⟩
        rw [hother]
        simp [hf]
      · rcases hltouch with h | h
        · exact absurd h hf
        · refine Or.inr ⟨h, ?_⟩
          rw [hother]
          simp [hf]
    have hne : otherId ≠ seedId := by
      intro he
      rw [he] at hseen
      exact hseen hseed
    have hw1 : withinHopsB links 1 seedId otherId = true :=
      withinHopsB_snoc links 0 seedId seedId otherId (withinHopsB_refl links 0 seedId)
        row.1 hlmem hadj
    have hrowOther : ∃ c ∈ ctx, c.id = otherId := by
      rw [hother]
      by_cases hf : row.1.from_id = seedId
      · refine ⟨row.2.2, hct, ?_⟩
        simp [hf, hctid]
      · refine ⟨row.2.1, hcf, ?_⟩
        simp [hf, hcfid]
    constructor
    · exact List.mem_append_left _ hseed
    · intro e he
      rcases List.mem_append.mp he with he2 | he2
      · exact hentries e he2
      · rw [List.mem_singleton] at he2
        subst he2
        exact ⟨rfl, otherId, rfl, hne, hw1, hrowOther⟩

/-- The hop-1 fold preserves the hop-1 invariant. -/
theorem hopFold_inv1 (ctx : List ContextItem) (links : List LinkRow) (seedId : String)
    (rows : List (LinkRow × ContextItem × ContextItem))
    (hrows : ∀ row ∈ rows, row.1 ∈ links ∧ (row.1.from_id = seedId ∨ row.1.to_id = seedId) ∧
      row.2.1 ∈ ctx ∧ row.2.2 ∈ ctx ∧
      row.2.1.id = row.1.from_id ∧ row.2.2.id = row.1.to_id)
    (st : List String × List RelatedEntry)
    (hinv : Trav1Inv ctx links seedId st) :
    Trav1Inv ctx links seedId (rows.foldl (hopStep seedId 1) st) := by
  induction rows generalizing st with
  | nil => exact hinv
  | cons row rest ih =>
      rw [List.foldl_cons]
      exact ih (fun r hr => hrows r (List.mem_cons_of_mem row hr)) _
        (hopStep_inv1 ctx links seedId row (hrows row (List.mem_cons_self row rest)) st hinv)

/-- One depth-2 expansion preserves the state invariant, given unambiguous
short-id resolution. -/
theorem hop2Expand_inv (ctx : List ContextItem) (links : List LinkRow) (seedId : String)
    (hresolve : ∀ e ∈ ctx, ∀ c ∈ ctx, (shortId e.id).data.isPrefixOf c.id.data = true →
      c.id = e.id)
    (rel : RelatedEntry)
    (hrel : ∃ full, rel.id = shortId full ∧ withinHopsB links 1 seedId full = true ∧
      ∃ cr ∈ ctx, cr.id = full)
    (st : List String × List RelatedEntry)
    (hinv : TravInv ctx links seedId st) :
    TravInv ctx links seedId (hop2Expand ctx links seedId st rel) := by
  obtain ⟨full, hid, hw1, cr, hcr, hcrid⟩ := hrel
  unfold hop2Expand
  rcases hfind : ctx.find? (fun c => rel.id.data.isPrefixOf c.id.data) with _ | row
  · rw [hfind]
    exact hinv
  · rw [hfind]
    have hpred : rel.id.data.isPrefixOf row.id.data = true := by
      simpa using List.find?_some hfind
    have hrowmem : row ∈ ctx := List.mem_of_find?_eq_some hfind
    have hrowid : row.id = full := by
      have hres := hresolve cr hcr row hrowmem (by rw [hcrid, ← hid]; exact hpred)
      rw [hres, hcrid]
    have hρ : withinHopsB links 1 seedId row.id = true := by
      rw [hrowid]
      exact hw1
    exact hopFold_inv ctx links seedId row.id 2 hρ _
      (fun r hr => mem_joinedLinks2 hr) st hinv

/-- The depth-2 expansion loop preserves the state invariant. -/
theorem hop2ExpandFold_inv (ctx : List ContextItem) (links : List LinkRow)
    (seedId : String)
    (hresolve : ∀ e ∈ ctx, ∀ c ∈ ctx, (shortId e.id).data.isPrefixOf c.id.data = true →
      c.id = e.id)
    (rels : List RelatedEntry)
    (hrels : ∀ rel ∈ rels, ∃ full, rel.id = shortId full ∧
      withinHopsB links 1 seedId full = true ∧ ∃ cr ∈ ctx, cr.id = full)
    (st : List String × List RelatedEntry)
    (hinv : TravInv ctx links seedId st) :
    TravInv ctx links seedId (rels.foldl (hop2Expand ctx links seedId) st) := by
  induction rels generalizing st with
  | nil => exact hinv
  | cons rel rest ih =>
      rw [List.foldl_cons]
      exact ih (fun r hr => hrels r (List.mem_cons_of_mem rel hr)) _
        (hop2Expand_inv ctx links seedId hresolve rel
          (hrels rel (List.mem_cons_self rel rest)) st hinv)

/-- Entry-level consequences of the state invariant. -/
theorem travInv_entries (ctx : List ContextItem) (links : List LinkRow)
    (seedId : String)
    (hresolve : ∀ e ∈ ctx, ∀ c ∈ ctx, (shortId e.id).data.isPrefixOf c.id.data = true →
      c.id = e.id)
    (st : List String × List RelatedEntry) (hinv : TravInv ctx links seedId st) :
    (∀ e ∈ st.2, ∃ full, e.id = shortId full ∧ full ≠ seedId ∧
      withinHopsB links 2 seedId full = true) ∧
    (st.2.map (fun e => e.id)).Nodup := by
  obtain ⟨fulls, h1, h2, h3, h4, h5⟩ := hinv
  have hseed_notin : seedId ∉ fulls := (List.nodup_cons.mp h3).1
  have hfulls_nodup : fulls.Nodup := (List.nodup_cons.mp h3).2
  constructor
  · intro e he
    have hmem : e.id ∈ fulls.map shortId := by
      rw [← h2]
      exact List.mem_map_of_mem _ he
    obtain ⟨f, hf, hfe⟩ := List.mem_map.mp hmem
    refine ⟨f, hfe.symm, ?_, h5 f hf⟩
    intro he2
    rw [he2] at hf
    exact hseed_notin hf
  · rw [h2]
    refine List.Nodup.map_on ?_ hfulls_nodup
    intro f1 hf1 f2 hf2 heq
    obtain ⟨c1, hc1, hc1id⟩ := h4 f1 hf1
    obtain ⟨c2, hc2, hc2id⟩ := h4 f2 hf2
    have hpre : (shortId c1.id).data.isPrefixOf c2.id.data = true := by
      rw [hc1id, heq, hc2id]
      exact shortId_isPrefix f2
    have hres := hresolve c1 hc1 c2 hc2 hpre
    rw [hc1id, hc2id] at hres
    exact hres.symm

/-! ### C7 -/

/-- C7 (amended): the effective traversal depth is always clamped into
[1, 2]; depth 1 reports only items one hop from the seed; provided no two
context rows collide on their 8-character short id (the depth-2 expansion
resolves hop-1 items by a short-id prefix lookup), the traversal never
reports the seed, never reports an item more than two hops away, and never
reports the same item twice. -/
theorem c7_graph_traversal (ctx : List ContextItem) (links : List LinkRow)
    (item : ContextItem) (d : Nat)
    (hresolve : ∀ e ∈ ctx, ∀ c ∈ ctx, (shortId e.id).data.isPrefixOf c.id.data = true →
      c.id = e.id) :
    (1 ≤ min 2 (max 1 d) ∧ min 2 (max 1 d) ≤ 2) ∧
    (∀ e ∈ relatedLocal ctx links item 1, e.hops = 1 ∧
      ∃ full, e.id = shortId full ∧ full ≠ item.id ∧
        withinHopsB links 1 item.id full = true) ∧
    (∀ e ∈ relatedLocal ctx links item d,
      ∃ full, e.id = shortId full ∧ full ≠ item.id ∧
        withinHopsB links 2 item.id full = true) ∧
    ((relatedLocal ctx links item d).map (fun e => e.id)).Nodup := by
  have hinv0 : TravInv ctx links item.id ([item.id], []) :=
    ⟨[], rfl, rfl, List.nodup_singleton _, fun f hf => absurd hf (List.not_mem_nil f),
     fun f hf => absurd hf (List.not_mem_nil f)⟩
  have hinv1 : Trav1Inv ctx links item.id ([item.id], []) :=
    ⟨List.mem_singleton.mpr rfl, fun e he => absurd he (List.not_mem_nil e)⟩
  have hhop1 := hopFold_inv1 ctx links item.id (joinedLinks ctx links item.id)
    (fun r hr => mem_joinedLinks hr) ([item.id], []) hinv1
  have hhop1T := hopFold_inv ctx links item.id item.id 1
    (withinHopsB_refl links 1 item.id) (joinedLinks ctx links item.id)
    (fun r hr => mem_joinedLinks hr) ([item.id], []) hinv0
  refine ⟨by omega, ?_, ?_⟩
  · intro e he
    unfold relatedLocal at he
    rw [if_neg (by norm_num)] at he
    obtain ⟨h1, full, h2, h3, h4, -⟩ := hhop1.2 e he
    exact ⟨h1, full, h2, h3, h4⟩
  · have hfinal : TravInv ctx links item.id
        (if 2 ≤ min 2 (max 1 d) ∧
            ((joinedLinks ctx links item.id).foldl (hopStep item.id 1)
              ([item.id], [])).2 ≠ [] then
          (((joinedLinks ctx links item.id).foldl (hopStep item.id 1)
              ([item.id], [])).2.foldl (hop2Expand ctx links item.id)
            ((joinedLinks ctx links item.id).foldl (hopStep item.id 1) ([item.id], [])))
        else ((joinedLinks ctx links item.id).foldl (hopStep item.id 1) ([item.id], []))) := by
      by_cases hcond : 2 ≤ min 2 (max 1 d) ∧
          ((joinedLinks ctx links item.id).foldl (hopStep item.id 1) ([item.id], [])).2 ≠ []
      · rw [if_pos hcond]
        refine hop2ExpandFold_inv ctx links item.id hresolve _ ?_ _ hhop1T
        intro rel hrel
        obtain ⟨-, full, hfid, -, hw1, hcr⟩ := hhop1.2 rel hrel
        exact ⟨full, hfid, hw1, hcr⟩
      · rw [if_neg hcond]
        exact hhop1T
    have hrel_eq : relatedLocal ctx links item d =
        (if 2 ≤ min 2 (max 1 d) ∧
            ((joinedLinks ctx links item.id).foldl (hopStep item.id 1)
              ([item.id], [])).2 ≠ [] then
          (((joinedLinks ctx links item.id).foldl (hopStep item.id 1)
              ([item.id], [])).2.foldl (hop2Expand ctx links item.id)
            ((joinedLinks ctx links item.id).foldl (hopStep item.id 1) ([item.id], [])))
        else ((joinedLinks ctx links item.id).foldl (hopStep item.id 1)
          ([item.id], []))).2 := by
      unfold relatedLocal
      by_cases hcond : 2 ≤ min 2 (max 1 d) ∧
          ((joinedLinks ctx links item.id).foldl (hopStep item.id 1) ([item.id], [])).2 ≠ []
      · rw [if_pos hcond, if_pos hcond]
      · rw [if_neg hcond, if_neg hcond]
    have hents := travInv_entries ctx links item.id hresolve _ hfinal
    rw [hrel_eq]
    exact hents

/-! ### Concrete material for C7 -/

/-- Counterexample to C7 as stated: two rows share the 8-character short-id
prefix `aaaaaaaa`, the depth-2 expansion resolves the hop-1 entry to the
wrong row, and the traversal reports the item `xfarxfar` at hop 2 even
though it is not within two hops of the seed. -/
theorem c7_counterexample :
    (relatedLocal c7Ctx c7Links c7Seed 2).map (fun e => (e.id, e.hops)) =
      [("aaaaaaaa", 1), ("xfarxfar", 2)] ∧
    (∀ c ∈ c7Ctx, shortId c.id = "xfarxfar" → c.id = "xfarxfar") ∧
    withinHopsB c7Links 2 "seed0000" "xfarxfar" = false := by
  refine ⟨by decide, by decide, by decide⟩

/-- Witness for C7's amended theorem on a collision-free store: one
neighbour at hop 1, its neighbour at hop 2, nothing further. -/
theorem c7_graph_traversal_witness :
    (1 ≤ min 2 (max 1 2) ∧ min 2 (max 1 2) ≤ 2) ∧
    (∀ e ∈ relatedLocal [c7Seed, c7Neighbour, c7Far] c7Links c7Seed 1, e.hops = 1 ∧
      ∃ full, e.id = shortId full ∧ full ≠ c7Seed.id ∧
        withinHopsB c7Links 1 c7Seed.id full = true) ∧
    (∀ e ∈ relatedLocal [c7Seed, c7Neighbour, c7Far] c7Links c7Seed 2,
      ∃ full, e.id = shortId full ∧ full ≠ c7Seed.id ∧
        withinHopsB c7Links 2 c7Seed.id full = true) ∧
    ((relatedLocal [c7Seed, c7Neighbour, c7Far] c7Links c7Seed 2).map
      (fun e => e.id)).Nodup :=
  c7_graph_traversal [c7Seed, c7Neighbour, c7Far] c7Links c7Seed 2 (by decide)

end Substrate
